import Mathlib

/-!
# jstat_exporter: the sampling and counter-reconciliation engine

A shallow embedding of `jstat_exporter.go`.  The four report operations
(`JstatGccapacity`, `JstatGcold`, `JstatGcnew`, `JstatGc`) and `Collect` are
state-passing programs over the `Exporter` struct and the output channel.

Modelling conventions.

* A Go `string` is a `List Char`.
* In the exporter a `float64` is an exact rational: the operations compute without
  rounding, on finite values.  `strconv.ParseFloat(s, 64)` is a parameter
  `pf : List Char → Option ℚ` (`none` stands for a non-nil `*strconv.NumError`, which
  carries the text `s`).  The only arithmetic of the program is the counter
  reconciliation of `JstatGc`; its `float64` form, with rounding, the infinities and
  NaN, is given separately by `reconcile64`, and agrees with the exact form on integers
  of magnitude at most `2 ^ 53`.
* `exec.Command(..).Output()` is an input: `none` stands for a non-nil `err`,
  `some out` for the captured standard output.
* A gauge or counter of the Prometheus client library is the number it holds.
  `Gauge.Set` stores a number; `Counter.Add` adds a number and panics on a negative
  one, as the library documents; `Collect(ch)` of a metric sends it on `ch`.
* Sending on the channel `ch` appends to a list.
* A run ends normally, or in `log.Fatal`, or in a Go runtime panic; an abnormal
  end keeps the world reached at that point.
-/

namespace JstatExporter

/-! ## Library functions used by the source -/

/-- Go `unicode.IsSpace`: the Latin-1 spaces `\t \n \v \f \r`, space, U+0085, U+00A0,
and the code points with the Unicode White_Space property above Latin-1. -/
def unicode.IsSpace (c : Char) : Bool :=
  let n := c.toNat
  n == 0x09 || n == 0x0A || n == 0x0B || n == 0x0C || n == 0x0D || n == 0x20 ||
  n == 0x85 || n == 0xA0 || n == 0x1680 || (0x2000 ≤ n && n ≤ 0x200A) ||
  n == 0x2028 || n == 0x2029 || n == 0x202F || n == 0x205F || n == 0x3000

/-- Go `strings.Split(s, "\n")`: cut `s` at every newline; the result is never empty. -/
def strings.Split : List Char → List (List Char)
  | [] => [[]]
  | c :: cs =>
    if c = Char.ofNat 10 then [] :: strings.Split cs
    else
      match strings.Split cs with
      | [] => [[c]]
      | l :: ls => (c :: l) :: ls

/-- Worker of `strings.Fields`: `cur` is the field being read, in reverse. -/
def strings.FieldsAux : List Char → List Char → List (List Char)
  | cur, [] => if cur.isEmpty then [] else [cur.reverse]
  | cur, c :: cs =>
    if unicode.IsSpace c then
      if cur.isEmpty then strings.FieldsAux [] cs
      else cur.reverse :: strings.FieldsAux [] cs
    else strings.FieldsAux (c :: cur) cs

/-- Go `strings.Fields(s)`: the maximal runs of non-space characters of `s`, in order. -/
def strings.Fields (s : List Char) : List (List Char) :=
  strings.FieldsAux [] s

/-! ## Data model -/

/-- The `Exporter` struct.  A `prometheus.Gauge` or `prometheus.Counter` field is
represented by the value the metric currently holds. -/
@[ext]
structure Exporter where
  jstatPath : List Char
  targetPid : List Char
  newMax : ℚ
  newCommit : ℚ
  oldMax : ℚ
  oldCommit : ℚ
  metaMax : ℚ
  metaCommit : ℚ
  metaUsed : ℚ
  oldUsed : ℚ
  oldCap : ℚ
  sv0Used : ℚ
  sv0Cap : ℚ
  sv1Used : ℚ
  sv1Cap : ℚ
  edenUsed : ℚ
  edenCap : ℚ
  fgcTimes : ℚ
  lastFgcTimes : ℚ
  fgcSec : ℚ
  ygcTimes : ℚ
  lastYgcTimes : ℚ
  ygcSec : ℚ
  gcSec : ℚ
deriving DecidableEq

/-- The metrics of the exporter, named as the struct fields that hold them. -/
inductive Metric
  | newMax | newCommit | oldMax | oldCommit | metaMax | metaCommit
  | metaUsed | oldUsed | oldCap
  | sv0Used | sv0Cap | sv1Used | sv1Cap | edenUsed | edenCap
  | fgcTimes | fgcSec | ygcTimes | ygcSec | gcSec
deriving DecidableEq, Repr

/-- The exporter together with what has been sent on the channel `ch` so far:
each `m.Collect(ch)` sends the metric, recorded with the value it holds then. -/
structure World where
  e : Exporter
  ch : List (Metric × ℚ)
deriving DecidableEq

/-- The ways a run ends abnormally. -/
inductive Failure
  /-- `log.Fatal(err)` after `exec.Command(..).Output()` returned an error. -/
  | fatalExec
  /-- `log.Fatal(err)` with `err` the `*strconv.NumError` of `ParseFloat`;
  the error carries the text that failed to parse and nothing else of the row. -/
  | fatalNumError (num : List Char)
  /-- Runtime panic of `parts[i]`: index out of range. -/
  | panicIndex (i : Nat)
  /-- Panic of `prometheus.Counter.Add` on a negative argument. -/
  | panicCounterDecrease
deriving DecidableEq, Repr

/-- The result of running a piece of the program from some world. -/
inductive Outcome (α : Type)
  | ok (a : α) (w : World)
  | fail (f : Failure) (w : World)
deriving DecidableEq

/-- A program fragment: a function from the world before to the outcome. -/
def Run (α : Type) : Type := World → Outcome α

/-- Sequencing: an abnormal end stops the run. -/
def Run.bind {α β : Type} (x : Run α) (f : α → Run β) : Run β := fun w =>
  match x w with
  | .ok a w' => f a w'
  | .fail e w' => .fail e w'

instance : Monad Run where
  pure a := fun w => .ok a w
  bind := Run.bind

/-! ## Primitive steps -/

/-- Modelled from the spec: `log.Fatal` of the package `log` of this repository, which
is not among the sources.  The spec describes the call as fatal: it terminates the
whole process.  The run ends at once, abnormally, in the world reached so far. -/
def log.Fatal {α : Type} (err : Failure) : Run α := fun w => .fail err w

/-- A Go runtime panic: the run ends at once, abnormally, in the world reached so far. -/
def raise {α : Type} (p : Failure) : Run α := fun w => .fail p w

/-- The statement `out, err := exec.Command(..).Output(); if err != nil { log.Fatal(err) }`
on the result `r` of the command. -/
def Output (r : Option (List Char)) : Run (List Char) :=
  match r with
  | some out => pure out
  | none => log.Fatal .fatalExec

/-- The slice access `parts[i]`: a runtime panic when `i` is out of range. -/
def index (parts : List (List Char)) (i : Nat) : Run (List Char) :=
  match parts[i]? with
  | some raw => pure raw
  | none => raise (.panicIndex i)

/-- The statement `v, err := strconv.ParseFloat(parts[i], 64); if err != nil { log.Fatal(err) }`. -/
def ParseFloat (pf : List Char → Option ℚ) (parts : List (List Char)) (i : Nat) : Run ℚ := do
  let raw ← index parts i
  match pf raw with
  | some v => pure v
  | none => log.Fatal (.fatalNumError raw)

/-- A read of an exporter field. -/
def load (read : Exporter → ℚ) : Run ℚ := fun w => .ok (read w.e) w

/-- A write to the exporter: `prometheus.Gauge.Set` of one gauge, or a field assignment. -/
def store (write : Exporter → Exporter) : Run Unit := fun w =>
  .ok () { w with e := write w.e }

/-- The method `prometheus.Counter.Add` of the client library, on the counter held in
the field read by `read` and written by `write`.  The library documents it as "Add adds
the given value to the counter. It panics if the value is < 0.": its `counter.go` tests
`v < 0` and panics with "counter cannot decrease in value" before anything is added.
The sum is taken here in exact arithmetic; `reconcile64` gives it in `float64`. -/
def Counter.Add (read : Exporter → ℚ) (write : ℚ → Exporter → Exporter) (v : ℚ) :
    Run Unit :=
  if v < 0 then raise .panicCounterDecrease
  else store (fun e => write (read e + v) e)

/-- The call `m.Collect(ch)` of one metric: the metric is sent on `ch`. -/
def send (m : Metric) (read : Exporter → ℚ) : Run Unit := fun w =>
  .ok () { w with ch := w.ch ++ [(m, read w.e)] }

/-- The loop `for i, x := range xs { body }`, with `i` counting from `start`. -/
def forRangeFrom {α : Type} (start : Nat) (xs : List α) (body : Nat → α → Run Unit) :
    Run Unit :=
  match xs with
  | [] => pure ()
  | x :: rest => do
    body start x
    forRangeFrom (start + 1) rest body

/-- The loop `for i, x := range xs { body }`. -/
def forRange {α : Type} (xs : List α) (body : Nat → α → Run Unit) : Run Unit :=
  forRangeFrom 0 xs body

/-! ## The program -/

/-- Go `NewExporter`, after the target pid has been resolved (reading the pid file or
running the pid command is input/output, outside the model): every gauge and counter
is freshly created, hence 0, and both last-observed values are `0.0`. -/
def NewExporter (jstatPath targetPid : List Char) : Exporter where
  jstatPath := jstatPath
  targetPid := targetPid
  newMax := 0
  newCommit := 0
  oldMax := 0
  oldCommit := 0
  metaMax := 0
  metaCommit := 0
  metaUsed := 0
  oldUsed := 0
  oldCap := 0
  sv0Used := 0
  sv0Cap := 0
  sv1Used := 0
  sv1Cap := 0
  edenUsed := 0
  edenCap := 0
  fgcTimes := 0
  lastFgcTimes := 0
  fgcSec := 0
  ygcTimes := 0
  lastYgcTimes := 0
  ygcSec := 0
  gcSec := 0

/-- The body of `if i == 1 { .. }` in `JstatGccapacity`, on the fields of line 1. -/
def gccapacityRow (pf : List Char → Option ℚ) (parts : List (List Char)) : Run Unit := do
  let newMax ← ParseFloat pf parts 1
  store (fun e => { e with newMax := newMax })
  send .newMax (·.newMax)
  let newCommit ← ParseFloat pf parts 2
  store (fun e => { e with newCommit := newCommit })
  send .newCommit (·.newCommit)
  let oldMax ← ParseFloat pf parts 7
  store (fun e => { e with oldMax := oldMax })
  send .oldMax (·.oldMax)
  let oldCommit ← ParseFloat pf parts 8
  store (fun e => { e with oldCommit := oldCommit })
  send .oldCommit (·.oldCommit)
  let metaMax ← ParseFloat pf parts 11
  store (fun e => { e with metaMax := metaMax })
  send .metaMax (·.metaMax)
  let metaCommit ← ParseFloat pf parts 12
  store (fun e => { e with metaCommit := metaCommit })
  send .metaCommit (·.metaCommit)

/-- Go `(*Exporter).JstatGccapacity`; `r` is the result of running `jstat -gccapacity`. -/
def JstatGccapacity (pf : List Char → Option ℚ) (r : Option (List Char)) : Run Unit := do
  let out ← Output r
  forRange (strings.Split out) fun i line =>
    if i == 1 then gccapacityRow pf (strings.Fields line) else pure ()

/-- The body of `if i == 1 { .. }` in `JstatGcold`, on the fields of line 1. -/
def gcoldRow (pf : List Char → Option ℚ) (parts : List (List Char)) : Run Unit := do
  let metaUsed ← ParseFloat pf parts 1
  store (fun e => { e with metaUsed := metaUsed })
  send .metaUsed (·.metaUsed)
  let oldUsed ← ParseFloat pf parts 5
  store (fun e => { e with oldUsed := oldUsed })
  send .oldUsed (·.oldUsed)
  let oldCap ← ParseFloat pf parts 4
  store (fun e => { e with oldCap := oldCap })
  send .oldCap (·.oldCap)

/-- Go `(*Exporter).JstatGcold`; `r` is the result of running `jstat -gcold`. -/
def JstatGcold (pf : List Char → Option ℚ) (r : Option (List Char)) : Run Unit := do
  let out ← Output r
  forRange (strings.Split out) fun i line =>
    if i == 1 then gcoldRow pf (strings.Fields line) else pure ()

/-- The body of `if i == 1 { .. }` in `JstatGcnew`, on the fields of line 1. -/
def gcnewRow (pf : List Char → Option ℚ) (parts : List (List Char)) : Run Unit := do
  let sv0Used ← ParseFloat pf parts 2
  store (fun e => { e with sv0Used := sv0Used })
  send .sv0Used (·.sv0Used)
  let sv0Cap ← ParseFloat pf parts 0
  store (fun e => { e with sv0Cap := sv0Cap })
  send .sv0Cap (·.sv0Cap)
  let sv1Used ← ParseFloat pf parts 3
  store (fun e => { e with sv1Used := sv1Used })
  send .sv1Used (·.sv1Used)
  let sv1Cap ← ParseFloat pf parts 1
  store (fun e => { e with sv1Cap := sv1Cap })
  send .sv1Cap (·.sv1Cap)
  let edenUsed ← ParseFloat pf parts 8
  store (fun e => { e with edenUsed := edenUsed })
  send .edenUsed (·.edenUsed)
  let edenCap ← ParseFloat pf parts 7
  store (fun e => { e with edenCap := edenCap })
  send .edenCap (·.edenCap)

/-- Go `(*Exporter).JstatGcnew`; `r` is the result of running `jstat -gcnew`. -/
def JstatGcnew (pf : List Char → Option ℚ) (r : Option (List Char)) : Run Unit := do
  let out ← Output r
  forRange (strings.Split out) fun i line =>
    if i == 1 then gcnewRow pf (strings.Fields line) else pure ()

/-- The body of `if i == 1 { .. }` in `JstatGc`, on the fields of line 1.  The two
deltas are taken in exact arithmetic; `reconcile64` gives the reconciliation in
`float64`. -/
def gcRow (pf : List Char → Option ℚ) (parts : List (List Char)) : Run Unit := do
  let ygcTimes ← ParseFloat pf parts 12
  let lastYgcTimes ← load (·.lastYgcTimes)
  Counter.Add (·.ygcTimes) (fun v e => { e with ygcTimes := v }) (ygcTimes - lastYgcTimes)
  send .ygcTimes (·.ygcTimes)
  store (fun e => { e with lastYgcTimes := ygcTimes })
  let ygcSec ← ParseFloat pf parts 13
  store (fun e => { e with ygcSec := ygcSec })
  send .ygcSec (·.ygcSec)
  let fgcTimes ← ParseFloat pf parts 14
  let lastFgcTimes ← load (·.lastFgcTimes)
  Counter.Add (·.fgcTimes) (fun v e => { e with fgcTimes := v }) (fgcTimes - lastFgcTimes)
  send .fgcTimes (·.fgcTimes)
  store (fun e => { e with lastFgcTimes := fgcTimes })
  let fgcSec ← ParseFloat pf parts 15
  store (fun e => { e with fgcSec := fgcSec })
  send .fgcSec (·.fgcSec)
  let gcSec ← ParseFloat pf parts 16
  store (fun e => { e with gcSec := gcSec })
  send .gcSec (·.gcSec)

/-- Go `(*Exporter).JstatGc`; `r` is the result of running `jstat -gc`. -/
def JstatGc (pf : List Char → Option ℚ) (r : Option (List Char)) : Run Unit := do
  let out ← Output r
  forRange (strings.Split out) fun i line =>
    if i == 1 then gcRow pf (strings.Fields line) else pure ()

/-- The results of the four `jstat` commands that one `Collect` runs. -/
structure Reports where
  gccapacity : Option (List Char)
  gcold : Option (List Char)
  gcnew : Option (List Char)
  gc : Option (List Char)
deriving DecidableEq

/-- Go `(*Exporter).Collect`. -/
def Collect (pf : List Char → Option ℚ) (r : Reports) : Run Unit := do
  JstatGccapacity pf r.gccapacity
  JstatGcold pf r.gcold
  JstatGcnew pf r.gcnew
  JstatGc pf r.gc

/-! ## A concrete reader of numbers for the examples -/

/-- A stand-in for `strconv.ParseFloat(s, 64)` on the texts of the examples: a non-empty
string of decimal digits is read as the natural number it denotes (as `ParseFloat`
does, exactly, below `2 ^ 53`); any other text is refused.  The examples use only digit
strings and texts that `ParseFloat` refuses as well. -/
def parseDigits (s : List Char) : Option ℚ :=
  if s.isEmpty then none
  else if s.all Char.isDigit then
    some ((s.foldl (fun n c => 10 * n + (c.toNat - 48)) 0 : Nat) : ℚ)
  else none

/-- The world of a freshly created exporter: nothing has been sent yet. -/
def fresh : World where
  e := NewExporter "/usr/bin/jstat".toList "1".toList
  ch := []

/-! ## Definitions used to state the properties -/

/-- What the statement `strconv.ParseFloat(parts[i], 64)` with its error check yields,
apart from the world: the number, or the way the run ends. -/
def readField (pf : List Char → Option ℚ) (parts : List (List Char)) (i : Nat) :
    Except Failure ℚ :=
  match parts[i]? with
  | none => .error (.panicIndex i)
  | some raw =>
    match pf raw with
    | none => .error (.fatalNumError raw)
    | some v => .ok v

/-- Line 1 of a command output, when there is one. -/
def line1 (out : List Char) : Option (List Char) :=
  (strings.Split out)[1]?

/-- The columns read by `JstatGccapacity`, in the order of the source. -/
def gccapacityCols : List Nat := [1, 2, 7, 8, 11, 12]

/-- The columns read by `JstatGcold`, in the order of the source. -/
def gcoldCols : List Nat := [1, 5, 4]

/-- The columns read by `JstatGcnew`, in the order of the source. -/
def gcnewCols : List Nat := [2, 0, 3, 1, 8, 7]

/-- The columns read by `JstatGc`, in the order of the source. -/
def gcCols : List Nat := [12, 13, 14, 15, 16]

/-- Consecutive scrapes of the aggregate-GC report: `JstatGc` is run on each output in
turn; the result lists the world after each scrape, and is `none` as soon as one
scrape ends abnormally. -/
def scrapesGc (pf : List Char → Option ℚ) (w : World) :
    List (Option (List Char)) → Option (List World)
  | [] => some []
  | r :: rs =>
    match JstatGc pf r w with
    | .ok _ w' => (scrapesGc pf w' rs).map (w' :: ·)
    | .fail _ _ => none

/-- Consecutive calls of `Collect`, each with a channel of its own: the exporter after
the last call, or `none` as soon as one call ends abnormally. -/
def collects (pf : List Char → Option ℚ) (e : Exporter) : List Reports → Option Exporter
  | [] => some e
  | r :: rs =>
    match Collect pf r ⟨e, []⟩ with
    | .ok _ w' => collects pf w'.e rs
    | .fail _ _ => none

/-- The number read at column `i` of a row: the field is there and `pf` accepts it. -/
def numberAt (pf : List Char → Option ℚ) (parts : List (List Char)) (i : Nat) : Option ℚ :=
  match parts[i]? with
  | none => none
  | some raw => pf raw

/-- The world in which a run ended, normally or not. -/
def Outcome.world {α : Type} : Outcome α → World
  | .ok _ w => w
  | .fail _ w => w

/-- The world after `JstatGccapacity` has handled a row with the given six numbers. -/
def gccapacityDone (w : World) (v1 v2 v7 v8 v11 v12 : ℚ) : World where
  e := { w.e with newMax := v1, newCommit := v2, oldMax := v7, oldCommit := v8,
                  metaMax := v11, metaCommit := v12 }
  ch := w.ch ++ [(.newMax, v1), (.newCommit, v2), (.oldMax, v7), (.oldCommit, v8),
                 (.metaMax, v11), (.metaCommit, v12)]

/-- The world after `JstatGcold` has handled a row with the given three numbers. -/
def gcoldDone (w : World) (v1 v5 v4 : ℚ) : World where
  e := { w.e with metaUsed := v1, oldUsed := v5, oldCap := v4 }
  ch := w.ch ++ [(.metaUsed, v1), (.oldUsed, v5), (.oldCap, v4)]

/-- The world after `JstatGcnew` has handled a row with the given six numbers. -/
def gcnewDone (w : World) (v2 v0 v3 v1 v8 v7 : ℚ) : World where
  e := { w.e with sv0Used := v2, sv0Cap := v0, sv1Used := v3, sv1Cap := v1,
                  edenUsed := v8, edenCap := v7 }
  ch := w.ch ++ [(.sv0Used, v2), (.sv0Cap, v0), (.sv1Used, v3), (.sv1Cap, v1),
                 (.edenUsed, v8), (.edenCap, v7)]

/-- The world after `JstatGc` has handled a row with the given five numbers. -/
def gcDone (w : World) (v12 v13 v14 v15 v16 : ℚ) : World where
  e := { w.e with ygcTimes := w.e.ygcTimes + (v12 - w.e.lastYgcTimes), lastYgcTimes := v12,
                  ygcSec := v13,
                  fgcTimes := w.e.fgcTimes + (v14 - w.e.lastFgcTimes), lastFgcTimes := v14,
                  fgcSec := v15, gcSec := v16 }
  ch := w.ch ++ [(.ygcTimes, w.e.ygcTimes + (v12 - w.e.lastYgcTimes)), (.ygcSec, v13),
                 (.fgcTimes, w.e.fgcTimes + (v14 - w.e.lastFgcTimes)), (.fgcSec, v15),
                 (.gcSec, v16)]

/-- The failures a row can end in because of its text: the slice access at a missing
column of `cols` panics, or `log.Fatal` reports the text of a column of `cols` that `pf`
refuses. -/
def rowFailure (pf : List Char → Option ℚ) (parts : List (List Char)) (cols : List Nat)
    (f : Failure) : Prop :=
  ∃ i ∈ cols, (parts[i]? = none ∧ f = .panicIndex i) ∨
    ∃ raw, parts[i]? = some raw ∧ pf raw = none ∧ f = .fatalNumError raw

/-- A report that cannot be handled: the command failed, or line 1 of its output lacks
a column of `cols` or has a text there that `pf` refuses. -/
def badReport (pf : List Char → Option ℚ) (cols : List Nat) (r : Option (List Char)) : Prop :=
  r = none ∨ ∃ out l, r = some out ∧ line1 out = some l ∧
    ∃ i ∈ cols, numberAt pf (strings.Fields l) i = none

/-- The counter state of an exporter: both counter totals and both last-observed values. -/
def counterState (e : Exporter) : ℚ × ℚ × ℚ × ℚ :=
  (e.ygcTimes, e.lastYgcTimes, e.fgcTimes, e.lastFgcTimes)

/-- The number in column `col` of line 1 of a report, when the command succeeded,
line 1 is there, and the column is there and numeric. -/
def counterColumn (pf : List Char → Option ℚ) (col : Nat) (r : Option (List Char)) :
    Option ℚ :=
  match r with
  | none => none
  | some out =>
    match line1 out with
    | none => none
    | some l => numberAt pf (strings.Fields l) col

/-! ## Example outputs -/

/-- A `jstat` output for the examples: a header line, the data row `row`, and a final
newline. -/
def report (row : String) : Option (List Char) :=
  some ("S0C S1C S0U S1U EC EU OC OU MC MU CCSC CCSU YGC YGCT FGC FGCT GCT\n" ++ row ++
    "\n").toList

/-- A `jstat -gc` output for the examples: the data row carries `ygc` in column 12 and
`fgc` in column 14, and in every other column the number of that column. -/
def gcReport (ygc fgc : String) : Option (List Char) :=
  report ("0 1 2 3 4 5 6 7 8 9 10 11 " ++ ygc ++ " 13 " ++ fgc ++ " 15 16")

/-- The world after the first example scrape: column 12 carried 100, column 14 carried 10. -/
def after100 : World := gcDone fresh 100 13 10 15 16

/-- The world after the second example scrape: column 12 carried 140, column 14 carried 14. -/
def after140 : World := gcDone after100 140 13 14 15 16

/-- The world after an example scrape of a fresh exporter: column 12 carried 7 and
column 14 carried 2. -/
def after7 : World := gcDone fresh 7 13 2 15 16

/-- Four example reports, one per command, all with the same data row: column `i`
carries the number `i`, except columns 12 and 14, which carry 100 and 10. -/
def sameRows : Reports where
  gccapacity := gcReport "100" "10"
  gcold := gcReport "100" "10"
  gcnew := gcReport "100" "10"
  gc := gcReport "100" "10"

/-- Four example reports with a data row that carries 40 in column 12 and 10 in column
14, and in every other column the number of that column. -/
def lowerRows : Reports where
  gccapacity := some "YGC\n0 1 2 3 4 5 6 7 8 9 10 11 40 13 10 15 16\n".toList
  gcold := some "YGC\n0 1 2 3 4 5 6 7 8 9 10 11 40 13 10 15 16\n".toList
  gcnew := some "YGC\n0 1 2 3 4 5 6 7 8 9 10 11 40 13 10 15 16\n".toList
  gc := some "YGC\n0 1 2 3 4 5 6 7 8 9 10 11 40 13 10 15 16\n".toList

/-- The world after `Collect` has handled `sameRows` from a fresh exporter. -/
def afterCollect : World :=
  gcDone (gcnewDone (gcoldDone (gccapacityDone fresh 1 2 7 8 11 100) 1 5 4) 2 0 3 1 8 7)
    100 13 10 15 16

/-- Example reports of one `Collect`: the capacity report is fine and the command of the
old-generation report fails. -/
def gcoldCommandFails : Reports where
  gccapacity := gcReport "100" "10"
  gcold := none
  gcnew := gcReport "100" "10"
  gc := gcReport "100" "10"

/-- Example reports of one `Collect`: all four commands succeed, and the data row of the
aggregate-GC report has a text that is not a number in column 13. -/
def gcColumn13Bad : Reports where
  gccapacity := gcReport "100" "10"
  gcold := gcReport "100" "10"
  gcnew := gcReport "100" "10"
  gc := report "0 1 2 3 4 5 6 7 8 9 10 11 100 x 10 15 16"

/-- Example reports of one `Collect`: every command prints a header and nothing else. -/
def headersOnly : Reports where
  gccapacity := some "NGCMN NGCMX NGC".toList
  gcold := some "MC MU CCSC".toList
  gcnew := some "S0C S1C S0U".toList
  gc := some "S0C S1C S0U".toList

/-- The fifteen gauges owned by the capacity, old-generation and young-generation
reports. -/
def otherGauges (e : Exporter) : List ℚ :=
  [e.newMax, e.newCommit, e.oldMax, e.oldCommit, e.metaMax, e.metaCommit,
   e.metaUsed, e.oldUsed, e.oldCap,
   e.sv0Used, e.sv0Cap, e.sv1Used, e.sv1Cap, e.edenUsed, e.edenCap]

/-! ## The float64 arithmetic of the counter reconciliation

The exporter above computes with exact rationals.  The definitions below give the
counter reconciliation of `JstatGc` (source lines 364-366 and 380-382) in the `float64`
arithmetic that the program really uses: IEEE 754 binary64 with rounding to nearest,
ties to even, overflow to an infinity, and NaN. -/

/-- A `float64` value: a finite value, as the rational it denotes (the two signed zeros
are identified), an infinity, or NaN. -/
inductive F64
  | fin (q : ℚ)
  | inf (negative : Bool)
  | nan
deriving DecidableEq

/-- Worker of `log2`: halve `n` until it is below 2, at most `fuel` times. -/
def log2Fuel : Nat → Nat → Nat
  | 0, _ => 0
  | fuel + 1, n => if 2 ≤ n then log2Fuel fuel (n / 2) + 1 else 0

/-- The natural number `⌊log₂ n⌋`, for positive `n` (and 0 for 0): the number of
halvings that bring `n` below 2. -/
def log2 (n : Nat) : Nat :=
  log2Fuel n n

/-- The integer `⌊log₂ (n / d)⌋`, for positive `n` and `d`: it is `log2 n - log2 d` or
one less. -/
def floorLog2 (n d : Nat) : Int :=
  let e0 : Int := (log2 n : Int) - (log2 d : Int)
  if d * 2 ^ e0.toNat ≤ n * 2 ^ (-e0).toNat then e0 else e0 - 1

/-- The natural number nearest to `n / d`, the even one of the two when `n / d` lies
half-way. -/
def roundHalfEven (n d : Nat) : Nat :=
  if 2 * (n % d) < d then n / d
  else if d < 2 * (n % d) then n / d + 1
  else if (n / d) % 2 = 0 then n / d
  else n / d + 1

/-- The binary64 magnitude nearest to `n / d`, for positive `n` and `d`: with `e` the
binary exponent of `n / d`, not below the least normal exponent `-1022`, the quotient
is rounded to a multiple of `2 ^ (e - 52)`; `none` stands for overflow, from `2 ^ 1024`
on. -/
def roundMagnitude (n d : Nat) : Option ℚ :=
  let e : Int := max (floorLog2 n d) (-1022)
  let s : Int := 52 - e
  let k : Nat := roundHalfEven (n * 2 ^ s.toNat) (d * 2 ^ (-s).toNat)
  let y : ℚ := ((k * 2 ^ (-s).toNat : Nat) : ℚ) / ((2 ^ s.toNat : Nat) : ℚ)
  if ((2 ^ 1024 : Nat) : ℚ) ≤ y then none else some y

/-- IEEE 754 rounding of a real number to binary64: to nearest, ties to even. -/
def F64.round (x : ℚ) : F64 :=
  if x = 0 then .fin 0
  else
    match roundMagnitude x.num.natAbs x.den with
    | none => .inf (decide (x < 0))
    | some y => .fin (if x < 0 then -y else y)

/-- Negation of a `float64`. -/
def F64.neg : F64 → F64
  | .fin q => .fin (-q)
  | .inf s => .inf (!s)
  | .nan => .nan

/-- The sum of two `float64` values: the exact sum, rounded. -/
def F64.add : F64 → F64 → F64
  | .fin a, .fin b => F64.round (a + b)
  | .fin _, .inf s => .inf s
  | .inf s, .fin _ => .inf s
  | .inf s, .inf t => if s = t then .inf s else .nan
  | .nan, _ => .nan
  | _, .nan => .nan

/-- The difference of two `float64` values. -/
def F64.sub (a b : F64) : F64 :=
  F64.add a (F64.neg b)

/-- The Go comparison `v < 0` on a `float64`; it is false on NaN. -/
def F64.ltZero : F64 → Bool
  | .fin q => decide (q < 0)
  | .inf s => s
  | .nan => false

/-- The Go comparison `a <= b` on two `float64` values; it is false when one is NaN. -/
def F64.le : F64 → F64 → Bool
  | .fin a, .fin b => decide (a ≤ b)
  | .fin _, .inf s => !s
  | .inf s, .fin _ => s
  | .inf s, .inf t => s || !t
  | .nan, _ => false
  | _, .nan => false

/-- One counter of the exporter in `float64`: the total held by the Prometheus counter
and the last-observed value (`ygcTimes` with `lastYgcTimes`, or `fgcTimes` with
`lastFgcTimes`). -/
structure Cell where
  total : F64
  last : F64
deriving DecidableEq

/-- Source lines 364-366 (and 380-382) in `float64`, on the parsed value `v`:
`e.ygcTimes.Add(ygcTimes - e.lastYgcTimes)`, then `e.lastYgcTimes = ygcTimes`.  The
result `none` stands for the panic of `Counter.Add`, which tests `v < 0`. -/
def reconcile64 (c : Cell) (v : F64) : Option Cell :=
  if (F64.sub v c.last).ltZero then none
  else some ⟨F64.add c.total (F64.sub v c.last), v⟩

/-- Consecutive reconciliations in `float64`, one per scrape: the cells after each
scrape, or `none` as soon as `Counter.Add` panics. -/
def reconciles64 (c : Cell) : List F64 → Option (List Cell)
  | [] => some []
  | v :: vs =>
    match reconcile64 c v with
    | none => none
    | some c' => (reconciles64 c' vs).map (c' :: ·)

/-! ## Running the primitive steps -/

theorem bind_apply {α β : Type} (x : Run α) (f : α → Run β) (w : World) :
    (x >>= f) w = match x w with | .ok a w' => f a w' | .fail e w' => .fail e w' := rfl

theorem pure_apply {α : Type} (a : α) (w : World) : (pure a : Run α) w = .ok a w := rfl

theorem ParseFloat_apply (pf : List Char → Option ℚ) (parts : List (List Char)) (i : Nat)
    (w : World) :
    ParseFloat pf parts i w =
      match readField pf parts i with
      | .ok v => .ok v w
      | .error f => .fail f w := by
  unfold ParseFloat readField index
  simp only [bind_apply]
  cases parts[i]? with
  | none => rfl
  | some raw =>
    simp only [pure_apply]
    cases pf raw <;> rfl

theorem readField_congr (pf : List Char → Option ℚ) (p q : List (List Char)) (i : Nat)
    (h : p[i]? = q[i]?) : readField pf p i = readField pf q i := by
  unfold readField
  rw [h]

theorem forRangeFrom_skip {α : Type} (f : α → Run Unit) (xs : List α) :
    ∀ start : Nat, 2 ≤ start → ∀ w : World,
      forRangeFrom start xs (fun i x => if i == 1 then f x else pure ()) w = .ok () w := by
  induction xs with
  | nil => intro start _ w; rfl
  | cons x rest ih =>
    intro start h w
    have hne : (start == 1) = false := by
      simp only [beq_eq_false_iff_ne, ne_eq]
      omega
    simp only [forRangeFrom, bind_apply, hne, pure_apply]
    exact ih (start + 1) (by omega) w

theorem forRange_line1 {α : Type} (f : α → Run Unit) (xs : List α) (w : World) :
    forRange xs (fun i x => if i == 1 then f x else pure ()) w =
      match xs[1]? with
      | none => .ok () w
      | some l => f l w := by
  match xs with
  | [] => rfl
  | [_] => rfl
  | _ :: y :: rest =>
    have h := forRangeFrom_skip f rest 2 (le_refl 2)
    have e0 : ((0 : Nat) == 1) = false := rfl
    have e1 : ((0 + 1 : Nat) == 1) = true := rfl
    simp only [forRange, forRangeFrom, bind_apply, pure_apply, e0, e1, if_true,
      Bool.false_eq_true, if_false, List.getElem?_cons_succ, List.getElem?_cons_zero]
    cases f y w with
    | ok a w' => exact h w'
    | fail e w' => rfl

/-! ## Closed forms of the four report rows -/

theorem gccapacityRow_apply (pf : List Char → Option ℚ) (parts : List (List Char)) (w : World) :
    gccapacityRow pf parts w =
      match readField pf parts 1 with
      | .error f => .fail f w
      | .ok v1 =>
        let w1 : World := ⟨{ w.e with newMax := v1 }, w.ch ++ [(.newMax, v1)]⟩
        match readField pf parts 2 with
        | .error f => .fail f w1
        | .ok v2 =>
          let w2 : World := ⟨{ w1.e with newCommit := v2 }, w1.ch ++ [(.newCommit, v2)]⟩
          match readField pf parts 7 with
          | .error f => .fail f w2
          | .ok v7 =>
            let w3 : World := ⟨{ w2.e with oldMax := v7 }, w2.ch ++ [(.oldMax, v7)]⟩
            match readField pf parts 8 with
            | .error f => .fail f w3
            | .ok v8 =>
              let w4 : World := ⟨{ w3.e with oldCommit := v8 }, w3.ch ++ [(.oldCommit, v8)]⟩
              match readField pf parts 11 with
              | .error f => .fail f w4
              | .ok v11 =>
                let w5 : World := ⟨{ w4.e with metaMax := v11 }, w4.ch ++ [(.metaMax, v11)]⟩
                match readField pf parts 12 with
                | .error f => .fail f w5
                | .ok v12 =>
                  .ok () ⟨{ w5.e with metaCommit := v12 }, w5.ch ++ [(.metaCommit, v12)]⟩ := by
  simp only [gccapacityRow, bind_apply, ParseFloat_apply]
  cases readField pf parts 1 with
  | error f => rfl
  | ok v1 =>
    simp only [store, send]
    cases readField pf parts 2 with
    | error f => rfl
    | ok v2 =>
      simp only [store, send]
      cases readField pf parts 7 with
      | error f => rfl
      | ok v7 =>
        simp only [store, send]
        cases readField pf parts 8 with
        | error f => rfl
        | ok v8 =>
          simp only [store, send]
          cases readField pf parts 11 with
          | error f => rfl
          | ok v11 =>
            simp only [store, send]
            cases readField pf parts 12 with
            | error f => rfl
            | ok v12 =>
              rfl

theorem gcoldRow_apply (pf : List Char → Option ℚ) (parts : List (List Char)) (w : World) :
    gcoldRow pf parts w =
      match readField pf parts 1 with
      | .error f => .fail f w
      | .ok v1 =>
        let w1 : World := ⟨{ w.e with metaUsed := v1 }, w.ch ++ [(.metaUsed, v1)]⟩
        match readField pf parts 5 with
        | .error f => .fail f w1
        | .ok v5 =>
          let w2 : World := ⟨{ w1.e with oldUsed := v5 }, w1.ch ++ [(.oldUsed, v5)]⟩
          match readField pf parts 4 with
          | .error f => .fail f w2
          | .ok v4 =>
            .ok () ⟨{ w2.e with oldCap := v4 }, w2.ch ++ [(.oldCap, v4)]⟩ := by
  simp only [gcoldRow, bind_apply, ParseFloat_apply]
  cases readField pf parts 1 with
  | error f => rfl
  | ok v1 =>
    simp only [store, send]
    cases readField pf parts 5 with
    | error f => rfl
    | ok v5 =>
      simp only [store, send]
      cases readField pf parts 4 with
      | error f => rfl
      | ok v4 =>
        rfl

theorem gcnewRow_apply (pf : List Char → Option ℚ) (parts : List (List Char)) (w : World) :
    gcnewRow pf parts w =
      match readField pf parts 2 with
      | .error f => .fail f w
      | .ok v2 =>
        let w1 : World := ⟨{ w.e with sv0Used := v2 }, w.ch ++ [(.sv0Used, v2)]⟩
        match readField pf parts 0 with
        | .error f => .fail f w1
        | .ok v0 =>
          let w2 : World := ⟨{ w1.e with sv0Cap := v0 }, w1.ch ++ [(.sv0Cap, v0)]⟩
          match readField pf parts 3 with
          | .error f => .fail f w2
          | .ok v3 =>
            let w3 : World := ⟨{ w2.e with sv1Used := v3 }, w2.ch ++ [(.sv1Used, v3)]⟩
            match readField pf parts 1 with
            | .error f => .fail f w3
            | .ok v1 =>
              let w4 : World := ⟨{ w3.e with sv1Cap := v1 }, w3.ch ++ [(.sv1Cap, v1)]⟩
              match readField pf parts 8 with
              | .error f => .fail f w4
              | .ok v8 =>
                let w5 : World := ⟨{ w4.e with edenUsed := v8 }, w4.ch ++ [(.edenUsed, v8)]⟩
                match readField pf parts 7 with
                | .error f => .fail f w5
                | .ok v7 =>
                  .ok () ⟨{ w5.e with edenCap := v7 }, w5.ch ++ [(.edenCap, v7)]⟩ := by
  simp only [gcnewRow, bind_apply, ParseFloat_apply]
  cases readField pf parts 2 with
  | error f => rfl
  | ok v2 =>
    simp only [store, send]
    cases readField pf parts 0 with
    | error f => rfl
    | ok v0 =>
      simp only [store, send]
      cases readField pf parts 3 with
      | error f => rfl
      | ok v3 =>
        simp only [store, send]
        cases readField pf parts 1 with
        | error f => rfl
        | ok v1 =>
          simp only [store, send]
          cases readField pf parts 8 with
          | error f => rfl
          | ok v8 =>
            simp only [store, send]
            cases readField pf parts 7 with
            | error f => rfl
            | ok v7 =>
              rfl

theorem gcRow_apply (pf : List Char → Option ℚ) (parts : List (List Char)) (w : World) :
    gcRow pf parts w =
      match readField pf parts 12 with
      | .error f => .fail f w
      | .ok v12 =>
        if v12 - w.e.lastYgcTimes < 0 then .fail .panicCounterDecrease w
        else
          let y : ℚ := w.e.ygcTimes + (v12 - w.e.lastYgcTimes)
          let w1 : World :=
            ⟨{ w.e with ygcTimes := y, lastYgcTimes := v12 }, w.ch ++ [(.ygcTimes, y)]⟩
          match readField pf parts 13 with
          | .error f => .fail f w1
          | .ok v13 =>
            let w2 : World := ⟨{ w1.e with ygcSec := v13 }, w1.ch ++ [(.ygcSec, v13)]⟩
            match readField pf parts 14 with
            | .error f => .fail f w2
            | .ok v14 =>
              if v14 - w.e.lastFgcTimes < 0 then .fail .panicCounterDecrease w2
              else
                let g : ℚ := w.e.fgcTimes + (v14 - w.e.lastFgcTimes)
                let w3 : World :=
                  ⟨{ w2.e with fgcTimes := g, lastFgcTimes := v14 }, w2.ch ++ [(.fgcTimes, g)]⟩
                match readField pf parts 15 with
                | .error f => .fail f w3
                | .ok v15 =>
                  let w4 : World := ⟨{ w3.e with fgcSec := v15 }, w3.ch ++ [(.fgcSec, v15)]⟩
                  match readField pf parts 16 with
                  | .error f => .fail f w4
                  | .ok v16 => .ok () ⟨{ w4.e with gcSec := v16 }, w4.ch ++ [(.gcSec, v16)]⟩ := by
  simp only [gcRow, bind_apply, ParseFloat_apply]
  cases readField pf parts 12 with
  | error f => rfl
  | ok v12 =>
    simp only [load, Counter.Add]
    by_cases h12 : v12 - w.e.lastYgcTimes < 0
    · simp only [h12, if_true]
      rfl
    · simp only [h12, if_false, store, send]
      cases readField pf parts 13 with
      | error f => rfl
      | ok v13 =>
        simp only []
        cases readField pf parts 14 with
        | error f => rfl
        | ok v14 =>
          simp only []
          by_cases h14 : v14 - w.e.lastFgcTimes < 0
          · simp only [h14, if_true]
            rfl
          · simp only [h14, if_false]
            cases readField pf parts 15 with
            | error f => rfl
            | ok v15 =>
              simp only []
              cases readField pf parts 16 with
              | error f => rfl
              | ok v16 => rfl

/-! ## The four report operations in terms of line 1 -/

theorem JstatGccapacity_noLine1 (pf : List Char → Option ℚ) (out : List Char) (w : World)
    (h : line1 out = none) : JstatGccapacity pf (some out) w = .ok () w := by
  unfold line1 at h
  simp only [JstatGccapacity, Output, bind_apply, pure_apply, forRange_line1, h]

theorem JstatGccapacity_line1 (pf : List Char → Option ℚ) (out l : List Char) (w : World)
    (h : line1 out = some l) :
    JstatGccapacity pf (some out) w = gccapacityRow pf (strings.Fields l) w := by
  unfold line1 at h
  simp only [JstatGccapacity, Output, bind_apply, pure_apply, forRange_line1, h]

theorem JstatGcold_noLine1 (pf : List Char → Option ℚ) (out : List Char) (w : World)
    (h : line1 out = none) : JstatGcold pf (some out) w = .ok () w := by
  unfold line1 at h
  simp only [JstatGcold, Output, bind_apply, pure_apply, forRange_line1, h]

theorem JstatGcold_line1 (pf : List Char → Option ℚ) (out l : List Char) (w : World)
    (h : line1 out = some l) :
    JstatGcold pf (some out) w = gcoldRow pf (strings.Fields l) w := by
  unfold line1 at h
  simp only [JstatGcold, Output, bind_apply, pure_apply, forRange_line1, h]

theorem JstatGcnew_noLine1 (pf : List Char → Option ℚ) (out : List Char) (w : World)
    (h : line1 out = none) : JstatGcnew pf (some out) w = .ok () w := by
  unfold line1 at h
  simp only [JstatGcnew, Output, bind_apply, pure_apply, forRange_line1, h]

theorem JstatGcnew_line1 (pf : List Char → Option ℚ) (out l : List Char) (w : World)
    (h : line1 out = some l) :
    JstatGcnew pf (some out) w = gcnewRow pf (strings.Fields l) w := by
  unfold line1 at h
  simp only [JstatGcnew, Output, bind_apply, pure_apply, forRange_line1, h]

theorem JstatGc_noLine1 (pf : List Char → Option ℚ) (out : List Char) (w : World)
    (h : line1 out = none) : JstatGc pf (some out) w = .ok () w := by
  unfold line1 at h
  simp only [JstatGc, Output, bind_apply, pure_apply, forRange_line1, h]

theorem JstatGc_line1 (pf : List Char → Option ℚ) (out l : List Char) (w : World)
    (h : line1 out = some l) :
    JstatGc pf (some out) w = gcRow pf (strings.Fields l) w := by
  unfold line1 at h
  simp only [JstatGc, Output, bind_apply, pure_apply, forRange_line1, h]

theorem JstatGccapacity_none (pf : List Char → Option ℚ) (w : World) :
    JstatGccapacity pf none w = .fail .fatalExec w := rfl

theorem JstatGcold_none (pf : List Char → Option ℚ) (w : World) :
    JstatGcold pf none w = .fail .fatalExec w := rfl

theorem JstatGcnew_none (pf : List Char → Option ℚ) (w : World) :
    JstatGcnew pf none w = .fail .fatalExec w := rfl

theorem JstatGc_none (pf : List Char → Option ℚ) (w : World) :
    JstatGc pf none w = .fail .fatalExec w := rfl

/-! ## Successful rows -/

theorem readField_ok_iff (pf : List Char → Option ℚ) (parts : List (List Char)) (i : Nat)
    (v : ℚ) : readField pf parts i = .ok v ↔ numberAt pf parts i = some v := by
  unfold readField numberAt
  cases parts[i]? with
  | none => simp
  | some raw =>
    cases hv : pf raw with
    | none => simp [hv]
    | some u => simp [hv]

theorem readField_error (pf : List Char → Option ℚ) (parts : List (List Char)) (i : Nat)
    (f : Failure) (h : readField pf parts i = .error f) :
    (parts[i]? = none ∧ f = .panicIndex i) ∨
      ∃ raw, parts[i]? = some raw ∧ pf raw = none ∧ f = .fatalNumError raw := by
  unfold readField at h
  cases hp : parts[i]? with
  | none =>
    simp only [hp] at h
    exact Or.inl ⟨rfl, (Except.error.inj h).symm⟩
  | some raw =>
    simp only [hp] at h
    cases hv : pf raw with
    | none =>
      simp only [hv] at h
      exact Or.inr ⟨raw, rfl, hv, (Except.error.inj h).symm⟩
    | some v =>
      simp only [hv] at h
      cases h

theorem readField_error_iff (pf : List Char → Option ℚ) (parts : List (List Char)) (i : Nat) :
    (∃ f, readField pf parts i = .error f) ↔ numberAt pf parts i = none := by
  unfold readField numberAt
  cases parts[i]? with
  | none => simp
  | some raw =>
    cases hv : pf raw with
    | none => simp [hv]
    | some u => simp [hv]

theorem gccapacityRow_ok (pf : List Char → Option ℚ) (parts : List (List Char)) (w : World)
    (v1 v2 v7 v8 v11 v12 : ℚ)
    (h1 : readField pf parts 1 = .ok v1)
    (h2 : readField pf parts 2 = .ok v2)
    (h7 : readField pf parts 7 = .ok v7)
    (h8 : readField pf parts 8 = .ok v8)
    (h11 : readField pf parts 11 = .ok v11)
    (h12 : readField pf parts 12 = .ok v12) :
    gccapacityRow pf parts w = .ok () (gccapacityDone w v1 v2 v7 v8 v11 v12) := by
  rw [gccapacityRow_apply]
  simp [h1, h2, h7, h8, h11, h12, gccapacityDone]

theorem gccapacityRow_inv (pf : List Char → Option ℚ) (parts : List (List Char)) (w w1 : World)
    (h : gccapacityRow pf parts w = .ok () w1) :
    ∃ v1 v2 v7 v8 v11 v12 : ℚ,
      readField pf parts 1 = .ok v1 ∧ readField pf parts 2 = .ok v2 ∧ readField pf parts 7 = .ok v7 ∧ readField pf parts 8 = .ok v8 ∧ readField pf parts 11 = .ok v11 ∧ readField pf parts 12 = .ok v12 ∧
      w1 = gccapacityDone w v1 v2 v7 v8 v11 v12 := by
  rw [gccapacityRow_apply] at h
  cases h1 : readField pf parts 1 with
  | error f => simp [h1] at h
  | ok v1 =>
    simp only [h1] at h
    cases h2 : readField pf parts 2 with
    | error f => simp [h2] at h
    | ok v2 =>
      simp only [h2] at h
      cases h7 : readField pf parts 7 with
      | error f => simp [h7] at h
      | ok v7 =>
        simp only [h7] at h
        cases h8 : readField pf parts 8 with
        | error f => simp [h8] at h
        | ok v8 =>
          simp only [h8] at h
          cases h11 : readField pf parts 11 with
          | error f => simp [h11] at h
          | ok v11 =>
            simp only [h11] at h
            cases h12 : readField pf parts 12 with
            | error f => simp [h12] at h
            | ok v12 =>
              simp only [h12] at h
              refine ⟨v1, v2, v7, v8, v11, v12, rfl, rfl, rfl, rfl, rfl, rfl, ?_⟩
              have h' := (Outcome.ok.inj h).2
              rw [← h']
              simp [gccapacityDone]

theorem gcoldRow_ok (pf : List Char → Option ℚ) (parts : List (List Char)) (w : World)
    (v1 v5 v4 : ℚ)
    (h1 : readField pf parts 1 = .ok v1)
    (h5 : readField pf parts 5 = .ok v5)
    (h4 : readField pf parts 4 = .ok v4) :
    gcoldRow pf parts w = .ok () (gcoldDone w v1 v5 v4) := by
  rw [gcoldRow_apply]
  simp [h1, h5, h4, gcoldDone]

theorem gcoldRow_inv (pf : List Char → Option ℚ) (parts : List (List Char)) (w w1 : World)
    (h : gcoldRow pf parts w = .ok () w1) :
    ∃ v1 v5 v4 : ℚ,
      readField pf parts 1 = .ok v1 ∧ readField pf parts 5 = .ok v5 ∧ readField pf parts 4 = .ok v4 ∧
      w1 = gcoldDone w v1 v5 v4 := by
  rw [gcoldRow_apply] at h
  cases h1 : readField pf parts 1 with
  | error f => simp [h1] at h
  | ok v1 =>
    simp only [h1] at h
    cases h5 : readField pf parts 5 with
    | error f => simp [h5] at h
    | ok v5 =>
      simp only [h5] at h
      cases h4 : readField pf parts 4 with
      | error f => simp [h4] at h
      | ok v4 =>
        simp only [h4] at h
        refine ⟨v1, v5, v4, rfl, rfl, rfl, ?_⟩
        have h' := (Outcome.ok.inj h).2
        rw [← h']
        simp [gcoldDone]

theorem gcnewRow_ok (pf : List Char → Option ℚ) (parts : List (List Char)) (w : World)
    (v2 v0 v3 v1 v8 v7 : ℚ)
    (h2 : readField pf parts 2 = .ok v2)
    (h0 : readField pf parts 0 = .ok v0)
    (h3 : readField pf parts 3 = .ok v3)
    (h1 : readField pf parts 1 = .ok v1)
    (h8 : readField pf parts 8 = .ok v8)
    (h7 : readField pf parts 7 = .ok v7) :
    gcnewRow pf parts w = .ok () (gcnewDone w v2 v0 v3 v1 v8 v7) := by
  rw [gcnewRow_apply]
  simp [h2, h0, h3, h1, h8, h7, gcnewDone]

theorem gcnewRow_inv (pf : List Char → Option ℚ) (parts : List (List Char)) (w w1 : World)
    (h : gcnewRow pf parts w = .ok () w1) :
    ∃ v2 v0 v3 v1 v8 v7 : ℚ,
      readField pf parts 2 = .ok v2 ∧ readField pf parts 0 = .ok v0 ∧ readField pf parts 3 = .ok v3 ∧ readField pf parts 1 = .ok v1 ∧ readField pf parts 8 = .ok v8 ∧ readField pf parts 7 = .ok v7 ∧
      w1 = gcnewDone w v2 v0 v3 v1 v8 v7 := by
  rw [gcnewRow_apply] at h
  cases h2 : readField pf parts 2 with
  | error f => simp [h2] at h
  | ok v2 =>
    simp only [h2] at h
    cases h0 : readField pf parts 0 with
    | error f => simp [h0] at h
    | ok v0 =>
      simp only [h0] at h
      cases h3 : readField pf parts 3 with
      | error f => simp [h3] at h
      | ok v3 =>
        simp only [h3] at h
        cases h1 : readField pf parts 1 with
        | error f => simp [h1] at h
        | ok v1 =>
          simp only [h1] at h
          cases h8 : readField pf parts 8 with
          | error f => simp [h8] at h
          | ok v8 =>
            simp only [h8] at h
            cases h7 : readField pf parts 7 with
            | error f => simp [h7] at h
            | ok v7 =>
              simp only [h7] at h
              refine ⟨v2, v0, v3, v1, v8, v7, rfl, rfl, rfl, rfl, rfl, rfl, ?_⟩
              have h' := (Outcome.ok.inj h).2
              rw [← h']
              simp [gcnewDone]

theorem gcRow_ok (pf : List Char → Option ℚ) (parts : List (List Char)) (w : World)
    (v12 v13 v14 v15 v16 : ℚ)
    (h12 : readField pf parts 12 = .ok v12)
    (h13 : readField pf parts 13 = .ok v13)
    (h14 : readField pf parts 14 = .ok v14)
    (h15 : readField pf parts 15 = .ok v15)
    (h16 : readField pf parts 16 = .ok v16)
    (hy : w.e.lastYgcTimes ≤ v12) (hf : w.e.lastFgcTimes ≤ v14) :
    gcRow pf parts w = .ok () (gcDone w v12 v13 v14 v15 v16) := by
  have hy' : ¬ (v12 - w.e.lastYgcTimes < 0) := by linarith
  have hf' : ¬ (v14 - w.e.lastFgcTimes < 0) := by linarith
  rw [gcRow_apply]
  simp [h12, h13, h14, h15, h16, hy', hf', gcDone]

theorem gcRow_inv (pf : List Char → Option ℚ) (parts : List (List Char)) (w w1 : World)
    (h : gcRow pf parts w = .ok () w1) :
    ∃ v12 v13 v14 v15 v16 : ℚ,
      readField pf parts 12 = .ok v12 ∧ readField pf parts 13 = .ok v13 ∧
      readField pf parts 14 = .ok v14 ∧ readField pf parts 15 = .ok v15 ∧
      readField pf parts 16 = .ok v16 ∧
      w.e.lastYgcTimes ≤ v12 ∧ w.e.lastFgcTimes ≤ v14 ∧
      w1 = gcDone w v12 v13 v14 v15 v16 := by
  rw [gcRow_apply] at h
  cases h12 : readField pf parts 12 with
  | error f => simp [h12] at h
  | ok v12 =>
    simp only [h12] at h
    by_cases hy : v12 - w.e.lastYgcTimes < 0
    · simp [hy] at h
    · simp only [hy, if_false] at h
      cases h13 : readField pf parts 13 with
      | error f => simp [h13] at h
      | ok v13 =>
        simp only [h13] at h
        cases h14 : readField pf parts 14 with
        | error f => simp [h14] at h
        | ok v14 =>
          simp only [h14] at h
          by_cases hf : v14 - w.e.lastFgcTimes < 0
          · simp [hf] at h
          · simp only [hf, if_false] at h
            cases h15 : readField pf parts 15 with
            | error f => simp [h15] at h
            | ok v15 =>
              simp only [h15] at h
              cases h16 : readField pf parts 16 with
              | error f => simp [h16] at h
              | ok v16 =>
                simp only [h16] at h
                refine ⟨v12, v13, v14, v15, v16, rfl, rfl, rfl, rfl, rfl, by linarith,
                  by linarith, ?_⟩
                have h' := (Outcome.ok.inj h).2
                rw [← h']
                simp [gcDone]

/-! ## Successful report operations -/

theorem JstatGccapacity_inv (pf : List Char → Option ℚ) (r : Option (List Char)) (w w1 : World)
    (h : JstatGccapacity pf r w = .ok () w1) :
    ∃ out, r = some out ∧
      ((line1 out = none ∧ w1 = w) ∨
        ∃ (l : List Char) (v1 v2 v7 v8 v11 v12 : ℚ), line1 out = some l ∧
          readField pf (strings.Fields l) 1 = .ok v1 ∧ readField pf (strings.Fields l) 2 = .ok v2 ∧ readField pf (strings.Fields l) 7 = .ok v7 ∧ readField pf (strings.Fields l) 8 = .ok v8 ∧ readField pf (strings.Fields l) 11 = .ok v11 ∧ readField pf (strings.Fields l) 12 = .ok v12 ∧
          w1 = gccapacityDone w v1 v2 v7 v8 v11 v12) := by
  cases r with
  | none => rw [JstatGccapacity_none] at h; cases h
  | some out =>
    refine ⟨out, rfl, ?_⟩
    cases hl : line1 out with
    | none =>
      rw [JstatGccapacity_noLine1 pf out w hl] at h
      exact Or.inl ⟨rfl, ((Outcome.ok.inj h).2).symm⟩
    | some l =>
      rw [JstatGccapacity_line1 pf out l w hl] at h
      obtain ⟨v1, v2, v7, v8, v11, v12, hh⟩ := gccapacityRow_inv pf _ w w1 h
      exact Or.inr ⟨l, v1, v2, v7, v8, v11, v12, rfl, hh⟩

theorem JstatGcold_inv (pf : List Char → Option ℚ) (r : Option (List Char)) (w w1 : World)
    (h : JstatGcold pf r w = .ok () w1) :
    ∃ out, r = some out ∧
      ((line1 out = none ∧ w1 = w) ∨
        ∃ (l : List Char) (v1 v5 v4 : ℚ), line1 out = some l ∧
          readField pf (strings.Fields l) 1 = .ok v1 ∧ readField pf (strings.Fields l) 5 = .ok v5 ∧ readField pf (strings.Fields l) 4 = .ok v4 ∧
          w1 = gcoldDone w v1 v5 v4) := by
  cases r with
  | none => rw [JstatGcold_none] at h; cases h
  | some out =>
    refine ⟨out, rfl, ?_⟩
    cases hl : line1 out with
    | none =>
      rw [JstatGcold_noLine1 pf out w hl] at h
      exact Or.inl ⟨rfl, ((Outcome.ok.inj h).2).symm⟩
    | some l =>
      rw [JstatGcold_line1 pf out l w hl] at h
      obtain ⟨v1, v5, v4, hh⟩ := gcoldRow_inv pf _ w w1 h
      exact Or.inr ⟨l, v1, v5, v4, rfl, hh⟩

theorem JstatGcnew_inv (pf : List Char → Option ℚ) (r : Option (List Char)) (w w1 : World)
    (h : JstatGcnew pf r w = .ok () w1) :
    ∃ out, r = some out ∧
      ((line1 out = none ∧ w1 = w) ∨
        ∃ (l : List Char) (v2 v0 v3 v1 v8 v7 : ℚ), line1 out = some l ∧
          readField pf (strings.Fields l) 2 = .ok v2 ∧ readField pf (strings.Fields l) 0 = .ok v0 ∧ readField pf (strings.Fields l) 3 = .ok v3 ∧ readField pf (strings.Fields l) 1 = .ok v1 ∧ readField pf (strings.Fields l) 8 = .ok v8 ∧ readField pf (strings.Fields l) 7 = .ok v7 ∧
          w1 = gcnewDone w v2 v0 v3 v1 v8 v7) := by
  cases r with
  | none => rw [JstatGcnew_none] at h; cases h
  | some out =>
    refine ⟨out, rfl, ?_⟩
    cases hl : line1 out with
    | none =>
      rw [JstatGcnew_noLine1 pf out w hl] at h
      exact Or.inl ⟨rfl, ((Outcome.ok.inj h).2).symm⟩
    | some l =>
      rw [JstatGcnew_line1 pf out l w hl] at h
      obtain ⟨v2, v0, v3, v1, v8, v7, hh⟩ := gcnewRow_inv pf _ w w1 h
      exact Or.inr ⟨l, v2, v0, v3, v1, v8, v7, rfl, hh⟩

theorem JstatGc_inv (pf : List Char → Option ℚ) (r : Option (List Char)) (w w1 : World)
    (h : JstatGc pf r w = .ok () w1) :
    ∃ out, r = some out ∧
      ((line1 out = none ∧ w1 = w) ∨
        ∃ (l : List Char) (v12 v13 v14 v15 v16 : ℚ), line1 out = some l ∧
          readField pf (strings.Fields l) 12 = .ok v12 ∧ readField pf (strings.Fields l) 13 = .ok v13 ∧ readField pf (strings.Fields l) 14 = .ok v14 ∧ readField pf (strings.Fields l) 15 = .ok v15 ∧ readField pf (strings.Fields l) 16 = .ok v16 ∧
          w.e.lastYgcTimes ≤ v12 ∧ w.e.lastFgcTimes ≤ v14 ∧ w1 = gcDone w v12 v13 v14 v15 v16) := by
  cases r with
  | none => rw [JstatGc_none] at h; cases h
  | some out =>
    refine ⟨out, rfl, ?_⟩
    cases hl : line1 out with
    | none =>
      rw [JstatGc_noLine1 pf out w hl] at h
      exact Or.inl ⟨rfl, ((Outcome.ok.inj h).2).symm⟩
    | some l =>
      rw [JstatGc_line1 pf out l w hl] at h
      obtain ⟨v12, v13, v14, v15, v16, hh⟩ := gcRow_inv pf _ w w1 h
      exact Or.inr ⟨l, v12, v13, v14, v15, v16, rfl, hh⟩

/-! ## Failing rows, rows that agree, and what a row leaves alone -/

theorem gccapacityRow_bad (pf : List Char → Option ℚ) (parts : List (List Char)) (w : World)
    (h : ∃ i ∈ gccapacityCols, numberAt pf parts i = none) :
    ∃ f w', gccapacityRow pf parts w = .fail f w' ∧ rowFailure pf parts gccapacityCols f := by
  rw [gccapacityRow_apply]
  cases h1 : readField pf parts 1 with
  | error f =>
    exact ⟨f, _, rfl, 1, by simp [gccapacityCols], readField_error pf parts 1 f h1⟩
  | ok v1 =>
    cases h2 : readField pf parts 2 with
    | error f =>
      exact ⟨f, _, rfl, 2, by simp [gccapacityCols], readField_error pf parts 2 f h2⟩
    | ok v2 =>
      cases h7 : readField pf parts 7 with
      | error f =>
        exact ⟨f, _, rfl, 7, by simp [gccapacityCols], readField_error pf parts 7 f h7⟩
      | ok v7 =>
        cases h8 : readField pf parts 8 with
        | error f =>
          exact ⟨f, _, rfl, 8, by simp [gccapacityCols], readField_error pf parts 8 f h8⟩
        | ok v8 =>
          cases h11 : readField pf parts 11 with
          | error f =>
            exact ⟨f, _, rfl, 11, by simp [gccapacityCols], readField_error pf parts 11 f h11⟩
          | ok v11 =>
            cases h12 : readField pf parts 12 with
            | error f =>
              exact ⟨f, _, rfl, 12, by simp [gccapacityCols], readField_error pf parts 12 f h12⟩
            | ok v12 =>
              exfalso
              obtain ⟨i, hi, hn⟩ := h
              simp only [gccapacityCols, List.mem_cons, List.mem_singleton, List.not_mem_nil, or_false] at hi
              rcases hi with rfl | rfl | rfl | rfl | rfl | rfl
              · rw [(readField_ok_iff pf parts 1 v1).1 h1] at hn; cases hn
              · rw [(readField_ok_iff pf parts 2 v2).1 h2] at hn; cases hn
              · rw [(readField_ok_iff pf parts 7 v7).1 h7] at hn; cases hn
              · rw [(readField_ok_iff pf parts 8 v8).1 h8] at hn; cases hn
              · rw [(readField_ok_iff pf parts 11 v11).1 h11] at hn; cases hn
              · rw [(readField_ok_iff pf parts 12 v12).1 h12] at hn; cases hn

theorem gccapacityRow_congr (pf : List Char → Option ℚ) (p q : List (List Char)) (w : World)
    (h : ∀ i ∈ gccapacityCols, p[i]? = q[i]?) : gccapacityRow pf p w = gccapacityRow pf q w := by
  rw [gccapacityRow_apply, gccapacityRow_apply]
  rw [readField_congr pf p q 1 (h 1 (by simp [gccapacityCols])), readField_congr pf p q 2 (h 2 (by simp [gccapacityCols])), readField_congr pf p q 7 (h 7 (by simp [gccapacityCols])), readField_congr pf p q 8 (h 8 (by simp [gccapacityCols])), readField_congr pf p q 11 (h 11 (by simp [gccapacityCols])), readField_congr pf p q 12 (h 12 (by simp [gccapacityCols]))]

theorem gccapacityRow_counterState (pf : List Char → Option ℚ) (parts : List (List Char))
    (w : World) : counterState (gccapacityRow pf parts w).world.e = counterState w.e := by
  rw [gccapacityRow_apply]
  cases readField pf parts 1 with
  | error f => rfl
  | ok v1 =>
    cases readField pf parts 2 with
    | error f => rfl
    | ok v2 =>
      cases readField pf parts 7 with
      | error f => rfl
      | ok v7 =>
        cases readField pf parts 8 with
        | error f => rfl
        | ok v8 =>
          cases readField pf parts 11 with
          | error f => rfl
          | ok v11 =>
            cases readField pf parts 12 with
            | error f => rfl
            | ok v12 =>
              rfl

theorem gcoldRow_bad (pf : List Char → Option ℚ) (parts : List (List Char)) (w : World)
    (h : ∃ i ∈ gcoldCols, numberAt pf parts i = none) :
    ∃ f w', gcoldRow pf parts w = .fail f w' ∧ rowFailure pf parts gcoldCols f := by
  rw [gcoldRow_apply]
  cases h1 : readField pf parts 1 with
  | error f =>
    exact ⟨f, _, rfl, 1, by simp [gcoldCols], readField_error pf parts 1 f h1⟩
  | ok v1 =>
    cases h5 : readField pf parts 5 with
    | error f =>
      exact ⟨f, _, rfl, 5, by simp [gcoldCols], readField_error pf parts 5 f h5⟩
    | ok v5 =>
      cases h4 : readField pf parts 4 with
      | error f =>
        exact ⟨f, _, rfl, 4, by simp [gcoldCols], readField_error pf parts 4 f h4⟩
      | ok v4 =>
        exfalso
        obtain ⟨i, hi, hn⟩ := h
        simp only [gcoldCols, List.mem_cons, List.mem_singleton, List.not_mem_nil, or_false] at hi
        rcases hi with rfl | rfl | rfl
        · rw [(readField_ok_iff pf parts 1 v1).1 h1] at hn; cases hn
        · rw [(readField_ok_iff pf parts 5 v5).1 h5] at hn; cases hn
        · rw [(readField_ok_iff pf parts 4 v4).1 h4] at hn; cases hn

theorem gcoldRow_congr (pf : List Char → Option ℚ) (p q : List (List Char)) (w : World)
    (h : ∀ i ∈ gcoldCols, p[i]? = q[i]?) : gcoldRow pf p w = gcoldRow pf q w := by
  rw [gcoldRow_apply, gcoldRow_apply]
  rw [readField_congr pf p q 1 (h 1 (by simp [gcoldCols])), readField_congr pf p q 5 (h 5 (by simp [gcoldCols])), readField_congr pf p q 4 (h 4 (by simp [gcoldCols]))]

theorem gcoldRow_counterState (pf : List Char → Option ℚ) (parts : List (List Char))
    (w : World) : counterState (gcoldRow pf parts w).world.e = counterState w.e := by
  rw [gcoldRow_apply]
  cases readField pf parts 1 with
  | error f => rfl
  | ok v1 =>
    cases readField pf parts 5 with
    | error f => rfl
    | ok v5 =>
      cases readField pf parts 4 with
      | error f => rfl
      | ok v4 =>
        rfl

theorem gcnewRow_bad (pf : List Char → Option ℚ) (parts : List (List Char)) (w : World)
    (h : ∃ i ∈ gcnewCols, numberAt pf parts i = none) :
    ∃ f w', gcnewRow pf parts w = .fail f w' ∧ rowFailure pf parts gcnewCols f := by
  rw [gcnewRow_apply]
  cases h2 : readField pf parts 2 with
  | error f =>
    exact ⟨f, _, rfl, 2, by simp [gcnewCols], readField_error pf parts 2 f h2⟩
  | ok v2 =>
    cases h0 : readField pf parts 0 with
    | error f =>
      exact ⟨f, _, rfl, 0, by simp [gcnewCols], readField_error pf parts 0 f h0⟩
    | ok v0 =>
      cases h3 : readField pf parts 3 with
      | error f =>
        exact ⟨f, _, rfl, 3, by simp [gcnewCols], readField_error pf parts 3 f h3⟩
      | ok v3 =>
        cases h1 : readField pf parts 1 with
        | error f =>
          exact ⟨f, _, rfl, 1, by simp [gcnewCols], readField_error pf parts 1 f h1⟩
        | ok v1 =>
          cases h8 : readField pf parts 8 with
          | error f =>
            exact ⟨f, _, rfl, 8, by simp [gcnewCols], readField_error pf parts 8 f h8⟩
          | ok v8 =>
            cases h7 : readField pf parts 7 with
            | error f =>
              exact ⟨f, _, rfl, 7, by simp [gcnewCols], readField_error pf parts 7 f h7⟩
            | ok v7 =>
              exfalso
              obtain ⟨i, hi, hn⟩ := h
              simp only [gcnewCols, List.mem_cons, List.mem_singleton, List.not_mem_nil, or_false] at hi
              rcases hi with rfl | rfl | rfl | rfl | rfl | rfl
              · rw [(readField_ok_iff pf parts 2 v2).1 h2] at hn; cases hn
              · rw [(readField_ok_iff pf parts 0 v0).1 h0] at hn; cases hn
              · rw [(readField_ok_iff pf parts 3 v3).1 h3] at hn; cases hn
              · rw [(readField_ok_iff pf parts 1 v1).1 h1] at hn; cases hn
              · rw [(readField_ok_iff pf parts 8 v8).1 h8] at hn; cases hn
              · rw [(readField_ok_iff pf parts 7 v7).1 h7] at hn; cases hn

theorem gcnewRow_congr (pf : List Char → Option ℚ) (p q : List (List Char)) (w : World)
    (h : ∀ i ∈ gcnewCols, p[i]? = q[i]?) : gcnewRow pf p w = gcnewRow pf q w := by
  rw [gcnewRow_apply, gcnewRow_apply]
  rw [readField_congr pf p q 2 (h 2 (by simp [gcnewCols])), readField_congr pf p q 0 (h 0 (by simp [gcnewCols])), readField_congr pf p q 3 (h 3 (by simp [gcnewCols])), readField_congr pf p q 1 (h 1 (by simp [gcnewCols])), readField_congr pf p q 8 (h 8 (by simp [gcnewCols])), readField_congr pf p q 7 (h 7 (by simp [gcnewCols]))]

theorem gcnewRow_counterState (pf : List Char → Option ℚ) (parts : List (List Char))
    (w : World) : counterState (gcnewRow pf parts w).world.e = counterState w.e := by
  rw [gcnewRow_apply]
  cases readField pf parts 2 with
  | error f => rfl
  | ok v2 =>
    cases readField pf parts 0 with
    | error f => rfl
    | ok v0 =>
      cases readField pf parts 3 with
      | error f => rfl
      | ok v3 =>
        cases readField pf parts 1 with
        | error f => rfl
        | ok v1 =>
          cases readField pf parts 8 with
          | error f => rfl
          | ok v8 =>
            cases readField pf parts 7 with
            | error f => rfl
            | ok v7 =>
              rfl

theorem gcRow_bad (pf : List Char → Option ℚ) (parts : List (List Char)) (w : World)
    (h : ∃ i ∈ gcCols, numberAt pf parts i = none) :
    ∃ f w', gcRow pf parts w = .fail f w' ∧
      (rowFailure pf parts gcCols f ∨ f = .panicCounterDecrease) := by
  rw [gcRow_apply]
  cases h12 : readField pf parts 12 with
  | error f =>
    exact ⟨f, _, rfl, Or.inl ⟨12, by simp [gcCols], readField_error pf parts 12 f h12⟩⟩
  | ok v12 =>
    by_cases hy : v12 - w.e.lastYgcTimes < 0
    · exact ⟨.panicCounterDecrease, w, by simp [hy], Or.inr rfl⟩
    · simp only [hy, if_false]
      cases h13 : readField pf parts 13 with
      | error f =>
        exact ⟨f, _, rfl, Or.inl ⟨13, by simp [gcCols], readField_error pf parts 13 f h13⟩⟩
      | ok v13 =>
        cases h14 : readField pf parts 14 with
        | error f =>
          exact ⟨f, _, rfl, Or.inl ⟨14, by simp [gcCols], readField_error pf parts 14 f h14⟩⟩
        | ok v14 =>
          by_cases hf : v14 - w.e.lastFgcTimes < 0
          · simp only [hf, if_true]
            exact ⟨.panicCounterDecrease, _, rfl, Or.inr rfl⟩
          · simp only [hf, if_false]
            cases h15 : readField pf parts 15 with
            | error f =>
              exact ⟨f, _, rfl,
                Or.inl ⟨15, by simp [gcCols], readField_error pf parts 15 f h15⟩⟩
            | ok v15 =>
              cases h16 : readField pf parts 16 with
              | error f =>
                exact ⟨f, _, rfl,
                  Or.inl ⟨16, by simp [gcCols], readField_error pf parts 16 f h16⟩⟩
              | ok v16 =>
                exfalso
                obtain ⟨i, hi, hn⟩ := h
                simp only [gcCols, List.mem_cons, List.mem_singleton, List.not_mem_nil,
                  or_false] at hi
                rcases hi with rfl | rfl | rfl | rfl | rfl
                · rw [(readField_ok_iff pf parts 12 v12).1 h12] at hn; cases hn
                · rw [(readField_ok_iff pf parts 13 v13).1 h13] at hn; cases hn
                · rw [(readField_ok_iff pf parts 14 v14).1 h14] at hn; cases hn
                · rw [(readField_ok_iff pf parts 15 v15).1 h15] at hn; cases hn
                · rw [(readField_ok_iff pf parts 16 v16).1 h16] at hn; cases hn

theorem gcRow_congr (pf : List Char → Option ℚ) (p q : List (List Char)) (w : World)
    (h : ∀ i ∈ gcCols, p[i]? = q[i]?) : gcRow pf p w = gcRow pf q w := by
  rw [gcRow_apply, gcRow_apply]
  rw [readField_congr pf p q 12 (h 12 (by simp [gcCols])),
    readField_congr pf p q 13 (h 13 (by simp [gcCols])),
    readField_congr pf p q 14 (h 14 (by simp [gcCols])),
    readField_congr pf p q 15 (h 15 (by simp [gcCols])),
    readField_congr pf p q 16 (h 16 (by simp [gcCols]))]

/-! ## Report operations: failure, agreement, frame -/

theorem JstatGccapacity_bad (pf : List Char → Option ℚ) (r : Option (List Char)) (w : World)
    (h : badReport pf gccapacityCols r) : ∃ f w', JstatGccapacity pf r w = .fail f w' := by
  rcases h with rfl | ⟨out, l, rfl, hl, hb⟩
  · exact ⟨_, _, JstatGccapacity_none pf w⟩
  · rw [JstatGccapacity_line1 pf out l w hl]
    obtain ⟨f, w', hf, _⟩ := gccapacityRow_bad pf (strings.Fields l) w hb
    exact ⟨f, w', hf⟩

theorem JstatGccapacity_congr (pf : List Char → Option ℚ) (out1 out2 l1 l2 : List Char) (w : World)
    (h1 : line1 out1 = some l1) (h2 : line1 out2 = some l2)
    (h : ∀ i ∈ gccapacityCols, (strings.Fields l1)[i]? = (strings.Fields l2)[i]?) :
    JstatGccapacity pf (some out1) w = JstatGccapacity pf (some out2) w := by
  rw [JstatGccapacity_line1 pf out1 l1 w h1, JstatGccapacity_line1 pf out2 l2 w h2]
  exact gccapacityRow_congr pf _ _ w h

theorem JstatGccapacity_sameLine1 (pf : List Char → Option ℚ) (out1 out2 : List Char) (w : World)
    (h : line1 out1 = line1 out2) :
    JstatGccapacity pf (some out1) w = JstatGccapacity pf (some out2) w := by
  cases h2 : line1 out2 with
  | none =>
    rw [h2] at h
    rw [JstatGccapacity_noLine1 pf out1 w h, JstatGccapacity_noLine1 pf out2 w h2]
  | some l =>
    rw [h2] at h
    rw [JstatGccapacity_line1 pf out1 l w h, JstatGccapacity_line1 pf out2 l w h2]

theorem JstatGccapacity_counterState (pf : List Char → Option ℚ) (r : Option (List Char))
    (w : World) : counterState (JstatGccapacity pf r w).world.e = counterState w.e := by
  cases r with
  | none => rfl
  | some out =>
    cases hl : line1 out with
    | none => rw [JstatGccapacity_noLine1 pf out w hl]; rfl
    | some l =>
      rw [JstatGccapacity_line1 pf out l w hl]
      exact gccapacityRow_counterState pf _ w

theorem JstatGcold_bad (pf : List Char → Option ℚ) (r : Option (List Char)) (w : World)
    (h : badReport pf gcoldCols r) : ∃ f w', JstatGcold pf r w = .fail f w' := by
  rcases h with rfl | ⟨out, l, rfl, hl, hb⟩
  · exact ⟨_, _, JstatGcold_none pf w⟩
  · rw [JstatGcold_line1 pf out l w hl]
    obtain ⟨f, w', hf, _⟩ := gcoldRow_bad pf (strings.Fields l) w hb
    exact ⟨f, w', hf⟩

theorem JstatGcold_congr (pf : List Char → Option ℚ) (out1 out2 l1 l2 : List Char) (w : World)
    (h1 : line1 out1 = some l1) (h2 : line1 out2 = some l2)
    (h : ∀ i ∈ gcoldCols, (strings.Fields l1)[i]? = (strings.Fields l2)[i]?) :
    JstatGcold pf (some out1) w = JstatGcold pf (some out2) w := by
  rw [JstatGcold_line1 pf out1 l1 w h1, JstatGcold_line1 pf out2 l2 w h2]
  exact gcoldRow_congr pf _ _ w h

theorem JstatGcold_sameLine1 (pf : List Char → Option ℚ) (out1 out2 : List Char) (w : World)
    (h : line1 out1 = line1 out2) :
    JstatGcold pf (some out1) w = JstatGcold pf (some out2) w := by
  cases h2 : line1 out2 with
  | none =>
    rw [h2] at h
    rw [JstatGcold_noLine1 pf out1 w h, JstatGcold_noLine1 pf out2 w h2]
  | some l =>
    rw [h2] at h
    rw [JstatGcold_line1 pf out1 l w h, JstatGcold_line1 pf out2 l w h2]

theorem JstatGcold_counterState (pf : List Char → Option ℚ) (r : Option (List Char))
    (w : World) : counterState (JstatGcold pf r w).world.e = counterState w.e := by
  cases r with
  | none => rfl
  | some out =>
    cases hl : line1 out with
    | none => rw [JstatGcold_noLine1 pf out w hl]; rfl
    | some l =>
      rw [JstatGcold_line1 pf out l w hl]
      exact gcoldRow_counterState pf _ w

theorem JstatGcnew_bad (pf : List Char → Option ℚ) (r : Option (List Char)) (w : World)
    (h : badReport pf gcnewCols r) : ∃ f w', JstatGcnew pf r w = .fail f w' := by
  rcases h with rfl | ⟨out, l, rfl, hl, hb⟩
  · exact ⟨_, _, JstatGcnew_none pf w⟩
  · rw [JstatGcnew_line1 pf out l w hl]
    obtain ⟨f, w', hf, _⟩ := gcnewRow_bad pf (strings.Fields l) w hb
    exact ⟨f, w', hf⟩

theorem JstatGcnew_congr (pf : List Char → Option ℚ) (out1 out2 l1 l2 : List Char) (w : World)
    (h1 : line1 out1 = some l1) (h2 : line1 out2 = some l2)
    (h : ∀ i ∈ gcnewCols, (strings.Fields l1)[i]? = (strings.Fields l2)[i]?) :
    JstatGcnew pf (some out1) w = JstatGcnew pf (some out2) w := by
  rw [JstatGcnew_line1 pf out1 l1 w h1, JstatGcnew_line1 pf out2 l2 w h2]
  exact gcnewRow_congr pf _ _ w h

theorem JstatGcnew_sameLine1 (pf : List Char → Option ℚ) (out1 out2 : List Char) (w : World)
    (h : line1 out1 = line1 out2) :
    JstatGcnew pf (some out1) w = JstatGcnew pf (some out2) w := by
  cases h2 : line1 out2 with
  | none =>
    rw [h2] at h
    rw [JstatGcnew_noLine1 pf out1 w h, JstatGcnew_noLine1 pf out2 w h2]
  | some l =>
    rw [h2] at h
    rw [JstatGcnew_line1 pf out1 l w h, JstatGcnew_line1 pf out2 l w h2]

theorem JstatGcnew_counterState (pf : List Char → Option ℚ) (r : Option (List Char))
    (w : World) : counterState (JstatGcnew pf r w).world.e = counterState w.e := by
  cases r with
  | none => rfl
  | some out =>
    cases hl : line1 out with
    | none => rw [JstatGcnew_noLine1 pf out w hl]; rfl
    | some l =>
      rw [JstatGcnew_line1 pf out l w hl]
      exact gcnewRow_counterState pf _ w

theorem JstatGc_bad (pf : List Char → Option ℚ) (r : Option (List Char)) (w : World)
    (h : badReport pf gcCols r) : ∃ f w', JstatGc pf r w = .fail f w' := by
  rcases h with rfl | ⟨out, l, rfl, hl, hb⟩
  · exact ⟨_, _, JstatGc_none pf w⟩
  · rw [JstatGc_line1 pf out l w hl]
    obtain ⟨f, w', hf, _⟩ := gcRow_bad pf (strings.Fields l) w hb
    exact ⟨f, w', hf⟩

theorem JstatGc_congr (pf : List Char → Option ℚ) (out1 out2 l1 l2 : List Char) (w : World)
    (h1 : line1 out1 = some l1) (h2 : line1 out2 = some l2)
    (h : ∀ i ∈ gcCols, (strings.Fields l1)[i]? = (strings.Fields l2)[i]?) :
    JstatGc pf (some out1) w = JstatGc pf (some out2) w := by
  rw [JstatGc_line1 pf out1 l1 w h1, JstatGc_line1 pf out2 l2 w h2]
  exact gcRow_congr pf _ _ w h

theorem JstatGc_sameLine1 (pf : List Char → Option ℚ) (out1 out2 : List Char) (w : World)
    (h : line1 out1 = line1 out2) :
    JstatGc pf (some out1) w = JstatGc pf (some out2) w := by
  cases h2 : line1 out2 with
  | none =>
    rw [h2] at h
    rw [JstatGc_noLine1 pf out1 w h, JstatGc_noLine1 pf out2 w h2]
  | some l =>
    rw [h2] at h
    rw [JstatGc_line1 pf out1 l w h, JstatGc_line1 pf out2 l w h2]

/-! ## Lines of an output -/

theorem Split_noNewline (s : List Char) (h : Char.ofNat 10 ∉ s) : strings.Split s = [s] := by
  induction s with
  | nil => rfl
  | cons c cs ih =>
    have hc : c ≠ Char.ofNat 10 := fun e => h (e ▸ List.mem_cons_self _ _)
    have hcs : Char.ofNat 10 ∉ cs := fun m => h (List.mem_cons_of_mem _ m)
    simp [strings.Split, hc, ih hcs]

theorem Split_trailingNewline (s : List Char) (h : Char.ofNat 10 ∉ s) :
    strings.Split (s ++ [Char.ofNat 10]) = [s, []] := by
  induction s with
  | nil => rfl
  | cons c cs ih =>
    have hc : c ≠ Char.ofNat 10 := fun e => h (e ▸ List.mem_cons_self _ _)
    have hcs : Char.ofNat 10 ∉ cs := fun m => h (List.mem_cons_of_mem _ m)
    simp [strings.Split, hc, ih hcs]

theorem line1_noNewline (s : List Char) (h : Char.ofNat 10 ∉ s) : line1 s = none := by
  unfold line1
  rw [Split_noNewline s h]
  rfl

theorem line1_trailingNewline (s : List Char) (h : Char.ofNat 10 ∉ s) :
    line1 (s ++ [Char.ofNat 10]) = some [] := by
  unfold line1
  rw [Split_trailingNewline s h]
  rfl

/-! ## Collect as four operations in a row -/

theorem Collect_inv (pf : List Char → Option ℚ) (r : Reports) (w w4 : World)
    (h : Collect pf r w = .ok () w4) :
    ∃ w1 w2 w3, JstatGccapacity pf r.gccapacity w = .ok () w1 ∧
      JstatGcold pf r.gcold w1 = .ok () w2 ∧ JstatGcnew pf r.gcnew w2 = .ok () w3 ∧
      JstatGc pf r.gc w3 = .ok () w4 := by
  simp only [Collect, bind_apply] at h
  cases h1 : JstatGccapacity pf r.gccapacity w with
  | fail f w' => simp [h1] at h
  | ok a w1 =>
    simp only [h1] at h
    cases h2 : JstatGcold pf r.gcold w1 with
    | fail f w' => simp [h2] at h
    | ok b w2 =>
      simp only [h2] at h
      cases h3 : JstatGcnew pf r.gcnew w2 with
      | fail f w' => simp [h3] at h
      | ok c w3 =>
        simp only [h3] at h
        exact ⟨w1, w2, w3, rfl, h2, h3, h⟩

theorem Collect_ok (pf : List Char → Option ℚ) (r : Reports) (w w1 w2 w3 w4 : World)
    (h1 : JstatGccapacity pf r.gccapacity w = .ok () w1)
    (h2 : JstatGcold pf r.gcold w1 = .ok () w2)
    (h3 : JstatGcnew pf r.gcnew w2 = .ok () w3)
    (h4 : JstatGc pf r.gc w3 = .ok () w4) : Collect pf r w = .ok () w4 := by
  simp only [Collect, bind_apply, h1, h2, h3, h4]

theorem Collect_gccapacity_fail (pf : List Char → Option ℚ) (r : Reports) (w w' : World)
    (f : Failure) (h1 : JstatGccapacity pf r.gccapacity w = .fail f w') :
    Collect pf r w = .fail f w' := by
  simp only [Collect, bind_apply, h1]

theorem Collect_gcold_fail (pf : List Char → Option ℚ) (r : Reports) (w w1 w' : World)
    (f : Failure) (h1 : JstatGccapacity pf r.gccapacity w = .ok () w1)
    (h2 : JstatGcold pf r.gcold w1 = .fail f w') :
    Collect pf r w = .fail f w' := by
  simp only [Collect, bind_apply, h1, h2]

theorem Collect_gcnew_fail (pf : List Char → Option ℚ) (r : Reports) (w w1 w2 w' : World)
    (f : Failure) (h1 : JstatGccapacity pf r.gccapacity w = .ok () w1)
    (h2 : JstatGcold pf r.gcold w1 = .ok () w2)
    (h3 : JstatGcnew pf r.gcnew w2 = .fail f w') :
    Collect pf r w = .fail f w' := by
  simp only [Collect, bind_apply, h1, h2, h3]

theorem Collect_gc_fail (pf : List Char → Option ℚ) (r : Reports) (w w1 w2 w3 w' : World)
    (f : Failure) (h1 : JstatGccapacity pf r.gccapacity w = .ok () w1)
    (h2 : JstatGcold pf r.gcold w1 = .ok () w2)
    (h3 : JstatGcnew pf r.gcnew w2 = .ok () w3)
    (h4 : JstatGc pf r.gc w3 = .fail f w') :
    Collect pf r w = .fail f w' := by
  simp only [Collect, bind_apply, h1, h2, h3, h4]

/-! ## One scrape of the aggregate-GC report and the counters -/

theorem JstatGc_step_ygc (pf : List Char → Option ℚ) (r : Option (List Char)) (w w1 : World)
    (v : ℚ) (h : JstatGc pf r w = .ok () w1) (hv : counterColumn pf 12 r = some v) :
    w1.e.lastYgcTimes = v ∧
      w1.e.ygcTimes - w1.e.lastYgcTimes = w.e.ygcTimes - w.e.lastYgcTimes := by
  obtain ⟨out, rfl, hcase⟩ := JstatGc_inv pf r w w1 h
  rcases hcase with ⟨hl, _⟩ | ⟨l, v12, v13, v14, v15, v16, hl, h12, _, _, _, _, _, _, rfl⟩
  · simp [counterColumn, hl] at hv
  · simp only [counterColumn, hl] at hv
    rw [(readField_ok_iff pf _ 12 v12).1 h12] at hv
    cases hv
    simp only [gcDone]
    constructor
    · trivial
    · ring

theorem JstatGc_step_fgc (pf : List Char → Option ℚ) (r : Option (List Char)) (w w1 : World)
    (v : ℚ) (h : JstatGc pf r w = .ok () w1) (hv : counterColumn pf 14 r = some v) :
    w1.e.lastFgcTimes = v ∧
      w1.e.fgcTimes - w1.e.lastFgcTimes = w.e.fgcTimes - w.e.lastFgcTimes := by
  obtain ⟨out, rfl, hcase⟩ := JstatGc_inv pf r w w1 h
  rcases hcase with ⟨hl, _⟩ | ⟨l, v12, v13, v14, v15, v16, hl, _, _, h14, _, _, _, _, rfl⟩
  · simp [counterColumn, hl] at hv
  · simp only [counterColumn, hl] at hv
    rw [(readField_ok_iff pf _ 14 v14).1 h14] at hv
    cases hv
    simp only [gcDone]
    constructor
    · trivial
    · ring

theorem JstatGc_keeps_offsets (pf : List Char → Option ℚ) (r : Option (List Char))
    (w w1 : World) (h : JstatGc pf r w = .ok () w1) :
    w1.e.ygcTimes - w1.e.lastYgcTimes = w.e.ygcTimes - w.e.lastYgcTimes ∧
      w1.e.fgcTimes - w1.e.lastFgcTimes = w.e.fgcTimes - w.e.lastFgcTimes := by
  obtain ⟨out, rfl, hcase⟩ := JstatGc_inv pf r w w1 h
  rcases hcase with ⟨_, rfl⟩ | ⟨l, v12, v13, v14, v15, v16, _, _, _, _, _, _, _, _, rfl⟩
  · exact ⟨rfl, rfl⟩
  · simp only [gcDone]
    constructor <;> ring

/-! ## What a successful operation changes, and running it again -/

theorem JstatGccapacity_frame (pf : List Char → Option ℚ) (r : Option (List Char)) (w w1 : World)
    (h : JstatGccapacity pf r w = .ok () w1) :
    w1.e = { w.e with newMax := w1.e.newMax, newCommit := w1.e.newCommit, oldMax := w1.e.oldMax, oldCommit := w1.e.oldCommit, metaMax := w1.e.metaMax, metaCommit := w1.e.metaCommit } := by
  obtain ⟨out, rfl, hcase⟩ := JstatGccapacity_inv pf r w w1 h
  rcases hcase with ⟨_, rfl⟩ | ⟨l, v1, v2, v7, v8, v11, v12, _, _, _, _, _, _, _, rfl⟩
  · rfl
  · rfl

theorem JstatGccapacity_rerun (pf : List Char → Option ℚ) (r : Option (List Char)) (w w1 w' : World)
    (h : JstatGccapacity pf r w = .ok () w1)
    (enewMax : w'.e.newMax = w1.e.newMax)
    (enewCommit : w'.e.newCommit = w1.e.newCommit)
    (eoldMax : w'.e.oldMax = w1.e.oldMax)
    (eoldCommit : w'.e.oldCommit = w1.e.oldCommit)
    (emetaMax : w'.e.metaMax = w1.e.metaMax)
    (emetaCommit : w'.e.metaCommit = w1.e.metaCommit) :
    ∃ w'', JstatGccapacity pf r w' = .ok () w'' ∧ w''.e = w'.e := by
  obtain ⟨out, rfl, hcase⟩ := JstatGccapacity_inv pf r w w1 h
  rcases hcase with ⟨hl, _⟩ | ⟨l, v1, v2, v7, v8, v11, v12, hl, h1, h2, h7, h8, h11, h12, rfl⟩
  · exact ⟨w', JstatGccapacity_noLine1 pf out w' hl, rfl⟩
  · refine ⟨gccapacityDone w' v1 v2 v7 v8 v11 v12, ?_, ?_⟩
    · rw [JstatGccapacity_line1 pf out l w' hl]
      exact gccapacityRow_ok pf _ w' v1 v2 v7 v8 v11 v12 h1 h2 h7 h8 h11 h12
    · simp only [gccapacityDone] at enewMax enewCommit eoldMax eoldCommit emetaMax emetaCommit
      ext <;> simp [gccapacityDone, *]

theorem JstatGcold_frame (pf : List Char → Option ℚ) (r : Option (List Char)) (w w1 : World)
    (h : JstatGcold pf r w = .ok () w1) :
    w1.e = { w.e with metaUsed := w1.e.metaUsed, oldUsed := w1.e.oldUsed, oldCap := w1.e.oldCap } := by
  obtain ⟨out, rfl, hcase⟩ := JstatGcold_inv pf r w w1 h
  rcases hcase with ⟨_, rfl⟩ | ⟨l, v1, v5, v4, _, _, _, _, rfl⟩
  · rfl
  · rfl

theorem JstatGcold_rerun (pf : List Char → Option ℚ) (r : Option (List Char)) (w w1 w' : World)
    (h : JstatGcold pf r w = .ok () w1)
    (emetaUsed : w'.e.metaUsed = w1.e.metaUsed)
    (eoldUsed : w'.e.oldUsed = w1.e.oldUsed)
    (eoldCap : w'.e.oldCap = w1.e.oldCap) :
    ∃ w'', JstatGcold pf r w' = .ok () w'' ∧ w''.e = w'.e := by
  obtain ⟨out, rfl, hcase⟩ := JstatGcold_inv pf r w w1 h
  rcases hcase with ⟨hl, _⟩ | ⟨l, v1, v5, v4, hl, h1, h5, h4, rfl⟩
  · exact ⟨w', JstatGcold_noLine1 pf out w' hl, rfl⟩
  · refine ⟨gcoldDone w' v1 v5 v4, ?_, ?_⟩
    · rw [JstatGcold_line1 pf out l w' hl]
      exact gcoldRow_ok pf _ w' v1 v5 v4 h1 h5 h4
    · simp only [gcoldDone] at emetaUsed eoldUsed eoldCap
      ext <;> simp [gcoldDone, *]

theorem JstatGcnew_frame (pf : List Char → Option ℚ) (r : Option (List Char)) (w w1 : World)
    (h : JstatGcnew pf r w = .ok () w1) :
    w1.e = { w.e with sv0Used := w1.e.sv0Used, sv0Cap := w1.e.sv0Cap, sv1Used := w1.e.sv1Used, sv1Cap := w1.e.sv1Cap, edenUsed := w1.e.edenUsed, edenCap := w1.e.edenCap } := by
  obtain ⟨out, rfl, hcase⟩ := JstatGcnew_inv pf r w w1 h
  rcases hcase with ⟨_, rfl⟩ | ⟨l, v2, v0, v3, v1, v8, v7, _, _, _, _, _, _, _, rfl⟩
  · rfl
  · rfl

theorem JstatGcnew_rerun (pf : List Char → Option ℚ) (r : Option (List Char)) (w w1 w' : World)
    (h : JstatGcnew pf r w = .ok () w1)
    (esv0Used : w'.e.sv0Used = w1.e.sv0Used)
    (esv0Cap : w'.e.sv0Cap = w1.e.sv0Cap)
    (esv1Used : w'.e.sv1Used = w1.e.sv1Used)
    (esv1Cap : w'.e.sv1Cap = w1.e.sv1Cap)
    (eedenUsed : w'.e.edenUsed = w1.e.edenUsed)
    (eedenCap : w'.e.edenCap = w1.e.edenCap) :
    ∃ w'', JstatGcnew pf r w' = .ok () w'' ∧ w''.e = w'.e := by
  obtain ⟨out, rfl, hcase⟩ := JstatGcnew_inv pf r w w1 h
  rcases hcase with ⟨hl, _⟩ | ⟨l, v2, v0, v3, v1, v8, v7, hl, h2, h0, h3, h1, h8, h7, rfl⟩
  · exact ⟨w', JstatGcnew_noLine1 pf out w' hl, rfl⟩
  · refine ⟨gcnewDone w' v2 v0 v3 v1 v8 v7, ?_, ?_⟩
    · rw [JstatGcnew_line1 pf out l w' hl]
      exact gcnewRow_ok pf _ w' v2 v0 v3 v1 v8 v7 h2 h0 h3 h1 h8 h7
    · simp only [gcnewDone] at esv0Used esv0Cap esv1Used esv1Cap eedenUsed eedenCap
      ext <;> simp [gcnewDone, *]

theorem JstatGc_frame (pf : List Char → Option ℚ) (r : Option (List Char)) (w w1 : World)
    (h : JstatGc pf r w = .ok () w1) :
    w1.e = { w.e with ygcTimes := w1.e.ygcTimes, lastYgcTimes := w1.e.lastYgcTimes,
                      ygcSec := w1.e.ygcSec, fgcTimes := w1.e.fgcTimes,
                      lastFgcTimes := w1.e.lastFgcTimes, fgcSec := w1.e.fgcSec,
                      gcSec := w1.e.gcSec } := by
  obtain ⟨out, rfl, hcase⟩ := JstatGc_inv pf r w w1 h
  rcases hcase with ⟨_, rfl⟩ | ⟨l, v12, v13, v14, v15, v16, _, _, _, _, _, _, _, _, rfl⟩
  · rfl
  · rfl

theorem JstatGc_rerun (pf : List Char → Option ℚ) (r : Option (List Char)) (w w1 w' : World)
    (h : JstatGc pf r w = .ok () w1)
    (ey : w'.e.lastYgcTimes = w1.e.lastYgcTimes)
    (ef : w'.e.lastFgcTimes = w1.e.lastFgcTimes)
    (eys : w'.e.ygcSec = w1.e.ygcSec)
    (efs : w'.e.fgcSec = w1.e.fgcSec)
    (eg : w'.e.gcSec = w1.e.gcSec) :
    ∃ w'', JstatGc pf r w' = .ok () w'' ∧ w''.e = w'.e := by
  obtain ⟨out, rfl, hcase⟩ := JstatGc_inv pf r w w1 h
  rcases hcase with ⟨hl, _⟩ | ⟨l, v12, v13, v14, v15, v16, hl, h12, h13, h14, h15, h16, _, _, rfl⟩
  · exact ⟨w', JstatGc_noLine1 pf out w' hl, rfl⟩
  · simp only [gcDone] at ey ef eys efs eg
    refine ⟨gcDone w' v12 v13 v14 v15 v16, ?_, ?_⟩
    · rw [JstatGc_line1 pf out l w' hl]
      exact gcRow_ok pf _ w' v12 v13 v14 v15 v16 h12 h13 h14 h15 h16 (le_of_eq ey)
        (le_of_eq ef)
    · ext <;> simp [gcDone, *]

/-! ## float64 arithmetic on integers -/

theorem log2Fuel_eq (fuel : Nat) : ∀ n : Nat, n ≤ fuel → log2Fuel fuel n = Nat.log2 n := by
  induction fuel with
  | zero =>
    intro n h
    have : n = 0 := by omega
    subst this
    rw [Nat.log2]
    rfl
  | succ fuel ih =>
    intro n h
    rw [Nat.log2]
    by_cases h2 : 2 ≤ n
    · have h3 : n ≥ 2 := h2
      simp only [log2Fuel, h2, h3, if_true]
      rw [ih (n / 2) (by omega)]
    · have h3 : ¬ n ≥ 2 := h2
      simp only [log2Fuel, h2, h3, if_false]

theorem log2_eq (n : Nat) : log2 n = Nat.log2 n :=
  log2Fuel_eq n n (le_refl n)

theorem roundHalfEven_one (n : Nat) : roundHalfEven n 1 = n := by
  simp [roundHalfEven, Nat.mod_one]

theorem floorLog2_le (n : Nat) (h1 : 1 ≤ n) (h2 : n < 2 ^ 53) : floorLog2 n 1 ≤ 52 := by
  have hn : n ≠ 0 := by omega
  have hL : Nat.log2 n < 53 := (Nat.log2_lt hn).2 h2
  have h0 : log2 1 = 0 := rfl
  unfold floorLog2
  simp only [h0, log2_eq n]
  split <;> omega

theorem roundMagnitude_nat (n : Nat) (h1 : 1 ≤ n) (h2 : n ≤ 2 ^ 53) :
    roundMagnitude n 1 = some (n : ℚ) := by
  rcases Nat.eq_or_lt_of_le h2 with rfl | hlt
  · decide!
  · have hL := floorLog2_le n h1 hlt
    unfold roundMagnitude
    generalize he : max (floorLog2 n 1) (-1022) = e
    have he52 : e ≤ 52 := by
      rw [← he]
      exact max_le hL (by decide)
    obtain ⟨S, hS⟩ : ∃ S : Nat, 52 - e = (S : Int) :=
      ⟨(52 - e).toNat, (Int.toNat_of_nonneg (by omega)).symm⟩
    simp only [hS, Int.toNat_ofNat, Int.toNat_neg_nat, pow_zero, mul_one, roundHalfEven_one]
    have hy : ((n * 2 ^ S : Nat) : ℚ) / ((2 ^ S : Nat) : ℚ) = (n : ℚ) := by
      push_cast
      field_simp
    have hbig : ¬ (((2 ^ 1024 : Nat) : ℚ) ≤ (n : ℚ)) := by
      have h3 : n < 2 ^ 1024 := lt_trans hlt (by norm_num)
      intro hle
      have h4 : 2 ^ 1024 ≤ n := by exact_mod_cast hle
      omega
    rw [hy, if_neg hbig]

theorem F64.round_int (z : Int) (h : z.natAbs ≤ 2 ^ 53) : F64.round (z : ℚ) = .fin (z : ℚ) := by
  unfold F64.round
  by_cases hz : z = 0
  · subst hz
    simp
  · have hq : (z : ℚ) ≠ 0 := by exact_mod_cast hz
    have h1 : 1 ≤ z.natAbs := Nat.one_le_iff_ne_zero.2 (Int.natAbs_ne_zero.2 hz)
    simp only [hq, if_false, Rat.num_intCast, Rat.den_intCast, roundMagnitude_nat z.natAbs h1 h]
    by_cases hneg : (z : ℚ) < 0
    · have hz' : z < 0 := by exact_mod_cast hneg
      simp only [hneg, if_true]
      congr 1
      rw [← Int.cast_natCast, Int.ofNat_natAbs_of_nonpos (le_of_lt hz')]
      push_cast
      ring
    · have hz' : 0 ≤ z := by
        have : ¬ z < 0 := fun hh => hneg (by exact_mod_cast hh)
        omega
      simp only [hneg, if_false]
      congr 1
      rw [← Int.cast_natCast, Int.natAbs_of_nonneg hz']

/-- On integers of magnitude at most `2 ^ 53` whose difference and new total have
magnitude at most `2 ^ 53` as well, the reconciliation in `float64` is the exact one:
nothing is rounded. -/
theorem reconcile64_int (t l v : Int)
    (hd : (v - l).natAbs ≤ 2 ^ 53) (hs : (t + (v - l)).natAbs ≤ 2 ^ 53) :
    reconcile64 ⟨.fin t, .fin l⟩ (.fin v) =
      if v - l < 0 then none else some ⟨.fin ((t + (v - l) : Int) : ℚ), .fin v⟩ := by
  have e1 : F64.sub (.fin (v : ℚ)) (.fin (l : ℚ)) = .fin ((v - l : Int) : ℚ) := by
    simp only [F64.sub, F64.neg, F64.add]
    rw [← F64.round_int (v - l) hd]
    congr 1
    push_cast
    ring
  have e2 : F64.add (.fin (t : ℚ)) (.fin ((v - l : Int) : ℚ)) =
      .fin ((t + (v - l) : Int) : ℚ) := by
    simp only [F64.add]
    rw [← F64.round_int (t + (v - l)) hs]
    congr 1
    push_cast
    ring
  simp only [reconcile64, e1, e2, F64.ltZero]
  by_cases hneg : v - l < 0
  · have : ((v - l : Int) : ℚ) < 0 := by exact_mod_cast hneg
    rw [if_pos hneg, decide_eq_true this]
    rfl
  · have : ¬ (((v - l : Int) : ℚ) < 0) := fun hh => hneg (by exact_mod_cast hh)
    rw [if_neg hneg, decide_eq_false this]
    rfl


/-! ## C1: counter reconciliation telescopes -/

theorem scrapesGc_ygc (pf : List Char → Option ℚ) :
    ∀ (rs : List (Option (List Char))) (w : World) (ws : List World),
      scrapesGc pf w rs = some ws →
      ∀ (k : Nat) (r : Option (List Char)) (wk : World) (vk : ℚ),
        rs[k]? = some r → counterColumn pf 12 r = some vk → ws[k]? = some wk →
        wk.e.lastYgcTimes = vk ∧
          wk.e.ygcTimes - vk = w.e.ygcTimes - w.e.lastYgcTimes := by
  intro rs
  induction rs with
  | nil => intro w ws _ k r wk vk hr; simp at hr
  | cons r0 rest ih =>
    intro w ws hrun k r wk vk hr hv hw
    simp only [scrapesGc] at hrun
    cases h0 : JstatGc pf r0 w with
    | fail f w' => simp [h0] at hrun
    | ok a w0 =>
      simp only [h0, Option.map_eq_some'] at hrun
      obtain ⟨ws', hrun', rfl⟩ := hrun
      cases k with
      | zero =>
        simp only [List.getElem?_cons_zero, Option.some.injEq] at hr hw
        subst hr hw
        obtain ⟨e1, e2⟩ := JstatGc_step_ygc pf r0 w w0 vk h0 hv
        rw [e1] at e2
        exact ⟨e1, e2⟩
      | succ k' =>
        simp only [List.getElem?_cons_succ] at hr hw
        obtain ⟨e1, e2⟩ := ih w0 ws' hrun' k' r wk vk hr hv hw
        refine ⟨e1, ?_⟩
        rw [e2]
        exact (JstatGc_keeps_offsets pf r0 w w0 h0).1

theorem scrapesGc_fgc (pf : List Char → Option ℚ) :
    ∀ (rs : List (Option (List Char))) (w : World) (ws : List World),
      scrapesGc pf w rs = some ws →
      ∀ (k : Nat) (r : Option (List Char)) (wk : World) (vk : ℚ),
        rs[k]? = some r → counterColumn pf 14 r = some vk → ws[k]? = some wk →
        wk.e.lastFgcTimes = vk ∧
          wk.e.fgcTimes - vk = w.e.fgcTimes - w.e.lastFgcTimes := by
  intro rs
  induction rs with
  | nil => intro w ws _ k r wk vk hr; simp at hr
  | cons r0 rest ih =>
    intro w ws hrun k r wk vk hr hv hw
    simp only [scrapesGc] at hrun
    cases h0 : JstatGc pf r0 w with
    | fail f w' => simp [h0] at hrun
    | ok a w0 =>
      simp only [h0, Option.map_eq_some'] at hrun
      obtain ⟨ws', hrun', rfl⟩ := hrun
      cases k with
      | zero =>
        simp only [List.getElem?_cons_zero, Option.some.injEq] at hr hw
        subst hr hw
        obtain ⟨e1, e2⟩ := JstatGc_step_fgc pf r0 w w0 vk h0 hv
        rw [e1] at e2
        exact ⟨e1, e2⟩
      | succ k' =>
        simp only [List.getElem?_cons_succ] at hr hw
        obtain ⟨e1, e2⟩ := ih w0 ws' hrun' k' r wk vk hr hv hw
        refine ⟨e1, ?_⟩
        rw [e2]
        exact (JstatGc_keeps_offsets pf r0 w w0 h0).2

theorem column_of_map (pf : List Char → Option ℚ) (col : Nat)
    (rs : List (Option (List Char))) (vs : List ℚ)
    (h : rs.map (counterColumn pf col) = vs.map some) (k : Nat) (vk : ℚ)
    (hk : vs[k]? = some vk) : ∃ r, rs[k]? = some r ∧ counterColumn pf col r = some vk := by
  have e : (rs.map (counterColumn pf col))[k]? = (vs.map some)[k]? := by rw [h]
  simp only [List.getElem?_map, hk, Option.map_some'] at e
  cases hr : rs[k]? with
  | none => simp [hr] at e
  | some r =>
    simp only [hr, Option.map_some', Option.some.injEq] at e
    exact ⟨r, rfl, e⟩

theorem chain_le_of_index (vs : List ℚ) (h : vs.Chain' (· ≤ ·)) (i j : Nat) (vi vj : ℚ)
    (hij : i ≤ j) (hi : vs[i]? = some vi) (hj : vs[j]? = some vj) : vi ≤ vj := by
  rcases Nat.eq_or_lt_of_le hij with rfl | hlt
  · rw [hi] at hj
    exact le_of_eq (Option.some.inj hj)
  · have hp : vs.Pairwise (· ≤ ·) := List.chain'_iff_pairwise.1 h
    obtain ⟨hi', rfl⟩ := List.getElem?_eq_some_iff.1 hi
    obtain ⟨hj', rfl⟩ := List.getElem?_eq_some_iff.1 hj
    exact List.pairwise_iff_getElem.1 hp i j hi' hj' hlt

/-- C1, as stated, fails in the `float64` arithmetic of the program.  From a fresh
exporter, let three scrapes carry the texts `0.1`, `0.2`, `0.9` in a counter column;
`ParseFloat` yields the nearest `float64` values `v0 ≤ v1 ≤ v2`, and no scrape panics.
The total after the third scrape is `8106479329266892 / 2 ^ 53`, which prints as
`0.8999999999999999`, while the total after the first scrape plus `v2 - v0` is
`8106479329266893 / 2 ^ 53`, which prints as `0.9`, whether that sum is taken in
`float64` or exactly. -/
theorem counter_rounding_counterexample :
    F64.round (1 / 10) = .fin (3602879701896397 / 2 ^ 55) ∧
      F64.round (2 / 10) = .fin (3602879701896397 / 2 ^ 54) ∧
      F64.round (9 / 10) = .fin (8106479329266893 / 2 ^ 53) ∧
      F64.le (F64.round (1 / 10)) (F64.round (2 / 10)) = true ∧
      F64.le (F64.round (2 / 10)) (F64.round (9 / 10)) = true ∧
      reconciles64 ⟨.fin 0, .fin 0⟩
          [F64.round (1 / 10), F64.round (2 / 10), F64.round (9 / 10)] =
        some [⟨F64.round (1 / 10), F64.round (1 / 10)⟩,
          ⟨F64.round (2 / 10), F64.round (2 / 10)⟩,
          ⟨.fin (8106479329266892 / 2 ^ 53), F64.round (9 / 10)⟩] ∧
      F64.add (F64.round (1 / 10)) (F64.sub (F64.round (9 / 10)) (F64.round (1 / 10))) =
        .fin (8106479329266893 / 2 ^ 53) ∧
      (3602879701896397 / 2 ^ 55 + (8106479329266893 / 2 ^ 53 - 3602879701896397 / 2 ^ 55) : ℚ) =
        8106479329266893 / 2 ^ 53 ∧
      (F64.fin (8106479329266892 / 2 ^ 53) ≠ F64.fin (8106479329266893 / 2 ^ 53)) := by
  refine ⟨by decide!, by decide!, by decide!, by decide!, by decide!, by decide!, by decide!,
    by decide!, by decide!⟩

/-- C1, amended.  Counter reconciliation in `JstatGc` telescopes in exact arithmetic.
Let the scrapes of the outputs `rs` from the world `w` all complete, leaving the worlds
`ws`, and let `vs` list the numbers in column 12 (resp. column 14) of their data rows, a
non-decreasing sequence.  Then for any two scrapes `i ≤ j` the `ygcTimes` (resp.
`fgcTimes`) total after scrape `j` is the total after scrape `i` plus `vs[j] - vs[i]`,
and the total after scrape `i` is at most the total after scrape `j`.  The `float64`
arithmetic of the program performs a reconciliation step without rounding, hence as in
exact arithmetic, when the total, the last-observed value and the parsed value are
integers of magnitude at most `2 ^ 53` and so are the delta and the new total. -/
theorem JstatGc_counter_telescopes (pf : List Char → Option ℚ) (w : World)
    (rs : List (Option (List Char))) (ws : List World) (vs : List ℚ)
    (i j : Nat) (wi wj : World) (vi vj : ℚ)
    (hrun : scrapesGc pf w rs = some ws)
    (hmono : vs.Chain' (· ≤ ·))
    (hij : i ≤ j)
    (hwi : ws[i]? = some wi) (hwj : ws[j]? = some wj)
    (hvi : vs[i]? = some vi) (hvj : vs[j]? = some vj) :
    (rs.map (counterColumn pf 12) = vs.map some →
        wj.e.ygcTimes = wi.e.ygcTimes + (vj - vi) ∧ wi.e.ygcTimes ≤ wj.e.ygcTimes) ∧
    (rs.map (counterColumn pf 14) = vs.map some →
        wj.e.fgcTimes = wi.e.fgcTimes + (vj - vi) ∧ wi.e.fgcTimes ≤ wj.e.fgcTimes) ∧
    (∀ t l v : Int, t.natAbs ≤ 2 ^ 53 → l.natAbs ≤ 2 ^ 53 → v.natAbs ≤ 2 ^ 53 →
      (v - l).natAbs ≤ 2 ^ 53 → (t + (v - l)).natAbs ≤ 2 ^ 53 →
      reconcile64 ⟨.fin t, .fin l⟩ (.fin v) =
        if v - l < 0 then none else some ⟨.fin ((t + (v - l) : Int) : ℚ), .fin v⟩) := by
  have hle : vi ≤ vj := chain_le_of_index vs hmono i j vi vj hij hvi hvj
  refine ⟨?_, ?_, ?_⟩
  · intro hcol
    obtain ⟨ri, hri, hci⟩ := column_of_map pf 12 rs vs hcol i vi hvi
    obtain ⟨rj, hrj, hcj⟩ := column_of_map pf 12 rs vs hcol j vj hvj
    obtain ⟨_, ei⟩ := scrapesGc_ygc pf rs w ws hrun i ri wi vi hri hci hwi
    obtain ⟨_, ej⟩ := scrapesGc_ygc pf rs w ws hrun j rj wj vj hrj hcj hwj
    constructor <;> linarith
  · intro hcol
    obtain ⟨ri, hri, hci⟩ := column_of_map pf 14 rs vs hcol i vi hvi
    obtain ⟨rj, hrj, hcj⟩ := column_of_map pf 14 rs vs hcol j vj hvj
    obtain ⟨_, ei⟩ := scrapesGc_fgc pf rs w ws hrun i ri wi vi hri hci hwi
    obtain ⟨_, ej⟩ := scrapesGc_fgc pf rs w ws hrun j rj wj vj hrj hcj hwj
    constructor <;> linarith
  · intro t l v _ _ _ hd hs
    exact reconcile64_int t l v hd hs

/-- C1, amended, at a concrete input: two scrapes from a fresh exporter whose data rows
carry 100 then 140 in column 12, in exact arithmetic and in `float64`. -/
theorem JstatGc_counter_telescopes_witness :
    scrapesGc parseDigits fresh [gcReport "100" "10", gcReport "140" "14"] =
        some [after100, after140] ∧
      ([100, 140] : List ℚ).Chain' (· ≤ ·) ∧
      [gcReport "100" "10", gcReport "140" "14"].map (counterColumn parseDigits 12) =
        ([100, 140] : List ℚ).map some ∧
      (after140.e.ygcTimes = after100.e.ygcTimes + (140 - 100) ∧
        after100.e.ygcTimes ≤ after140.e.ygcTimes) ∧
      reconcile64 ⟨.fin (100 : Int), .fin (100 : Int)⟩ (.fin (140 : Int)) =
        some ⟨.fin ((100 + (140 - 100) : Int) : ℚ), .fin (140 : Int)⟩ :=
  have hrun : scrapesGc parseDigits fresh [gcReport "100" "10", gcReport "140" "14"] =
      some [after100, after140] := by decide!
  have hmono : ([100, 140] : List ℚ).Chain' (· ≤ ·) := by norm_num
  have hcol : [gcReport "100" "10", gcReport "140" "14"].map (counterColumn parseDigits 12) =
      ([100, 140] : List ℚ).map some := by decide!
  ⟨hrun, hmono, hcol,
    (JstatGc_counter_telescopes parseDigits fresh _ _ [100, 140] 0 1 after100 after140 100 140
      hrun hmono (by decide) rfl rfl rfl rfl).1 hcol,
    (JstatGc_counter_telescopes parseDigits fresh _ _ [100, 140] 0 1 after100 after140 100 140
      hrun hmono (by decide) rfl rfl rfl rfl).2.2 100 100 140 (by decide) (by decide)
      (by decide) (by decide) (by decide)⟩

/-! ## C2: a cumulative value that went down -/

/-- C2, as stated, fails.  On a fresh exporter the scrapes carrying 100 and then 140 in
column 12 complete with `ygcTimes` totals 100 and 140, but the third scrape, carrying 40,
does not complete: `Counter.Add` panics on the delta `40 - 140`, in the world reached by
the second scrape, so the total stays 140 and is never 40.  The same holds in column 14
for `fgcTimes`, with 10, 14 and 4. -/
theorem JstatGc_restart_counterexample :
    JstatGc parseDigits (gcReport "100" "10") fresh = .ok () after100 ∧
      after100.e.ygcTimes = 100 ∧
      JstatGc parseDigits (gcReport "140" "14") after100 = .ok () after140 ∧
      after140.e.ygcTimes = 140 ∧
      JstatGc parseDigits (gcReport "40" "14") after140 = .fail .panicCounterDecrease after140 ∧
      (¬ ∃ w3, JstatGc parseDigits (gcReport "40" "14") after140 = .ok () w3) ∧
      after100.e.fgcTimes = 10 ∧ after140.e.fgcTimes = 14 ∧
      (∃ w', JstatGc parseDigits (gcReport "140" "4") after140 = .fail .panicCounterDecrease w' ∧
        w'.e.fgcTimes = 14) := by
  refine ⟨by decide!, by decide!, by decide!, by decide!, by decide!, ?_, by decide!,
    by decide!, ⟨(JstatGc parseDigits (gcReport "140" "4") after140).world, by decide!,
      by decide!⟩⟩
  rintro ⟨w3, h3⟩
  have h : JstatGc parseDigits (gcReport "40" "14") after140 =
      .fail .panicCounterDecrease after140 := by decide!
  rw [h] at h3
  cases h3

/-- C2, amended.  `JstatGc` does not clamp a negative delta, and `Counter.Add` rejects it.
When line 1 carries in column 12 a number below `lastYgcTimes`, the scrape ends in the
panic of `Counter.Add` with the world unchanged.  When column 12 is not below
`lastYgcTimes`, column 13 is numeric and column 14 carries a number below
`lastFgcTimes`, the scrape ends in the same panic, and there the `fgcTimes` total and
`lastFgcTimes` are unchanged.  In neither case is the exposed counter lowered. -/
theorem JstatGc_negative_delta_panics (pf : List Char → Option ℚ) (w : World)
    (out l : List Char) (v12 : ℚ)
    (hl : line1 out = some l)
    (h12 : numberAt pf (strings.Fields l) 12 = some v12) :
    (v12 < w.e.lastYgcTimes → JstatGc pf (some out) w = .fail .panicCounterDecrease w) ∧
    (∀ v13 v14 : ℚ, w.e.lastYgcTimes ≤ v12 →
      numberAt pf (strings.Fields l) 13 = some v13 →
      numberAt pf (strings.Fields l) 14 = some v14 → v14 < w.e.lastFgcTimes →
      ∃ w', JstatGc pf (some out) w = .fail .panicCounterDecrease w' ∧
        w'.e.fgcTimes = w.e.fgcTimes ∧ w'.e.lastFgcTimes = w.e.lastFgcTimes) := by
  have r12 := (readField_ok_iff pf (strings.Fields l) 12 v12).2 h12
  constructor
  · intro hlt
    have hneg : v12 - w.e.lastYgcTimes < 0 := by linarith
    rw [JstatGc_line1 pf out l w hl, gcRow_apply]
    simp only [r12, hneg, if_true]
  · intro v13 v14 hle h13 h14 hlt
    have r13 := (readField_ok_iff pf (strings.Fields l) 13 v13).2 h13
    have r14 := (readField_ok_iff pf (strings.Fields l) 14 v14).2 h14
    have hnn : ¬ (v12 - w.e.lastYgcTimes < 0) := by linarith
    have hneg : v14 - w.e.lastFgcTimes < 0 := by linarith
    rw [JstatGc_line1 pf out l w hl, gcRow_apply]
    simp only [r12, r13, r14, hnn, hneg, if_true, if_false]
    exact ⟨_, rfl, rfl, rfl⟩

/-- C2, amended, at a concrete input: after scrapes carrying 100 and 140, a data row
carrying 40 in column 12. -/
theorem JstatGc_negative_delta_panics_witness :
    line1 ("YGC\n0 1 2 3 4 5 6 7 8 9 10 11 40 13 14 15 16".toList) =
        some "0 1 2 3 4 5 6 7 8 9 10 11 40 13 14 15 16".toList ∧
      numberAt parseDigits
        (strings.Fields "0 1 2 3 4 5 6 7 8 9 10 11 40 13 14 15 16".toList) 12 = some 40 ∧
      (40 : ℚ) < after140.e.lastYgcTimes ∧
      JstatGc parseDigits (some "YGC\n0 1 2 3 4 5 6 7 8 9 10 11 40 13 14 15 16".toList)
        after140 = .fail .panicCounterDecrease after140 :=
  ⟨by decide!, by decide!, by decide!,
    (JstatGc_negative_delta_panics parseDigits after140
      "YGC\n0 1 2 3 4 5 6 7 8 9 10 11 40 13 14 15 16".toList
      "0 1 2 3 4 5 6 7 8 9 10 11 40 13 14 15 16".toList 40 (by decide!) (by decide!)).1
      (by decide!)⟩

/-! ## C3: an output without a data row -/

/-- C3, as stated, fails.  On an output that is a header line and nothing else (no
newline), each of the four operations completes normally and leaves the world as it
was: nothing is set, nothing is sent, and no error is raised. -/
theorem header_only_counterexample :
    JstatGccapacity parseDigits (some "NGCMN NGCMX NGC".toList) fresh = .ok () fresh ∧
      JstatGcold parseDigits (some "MC MU CCSC".toList) fresh = .ok () fresh ∧
      JstatGcnew parseDigits (some "S0C S1C S0U".toList) fresh = .ok () fresh ∧
      JstatGc parseDigits (some "S0C S1C S0U".toList) fresh = .ok () fresh := by
  refine ⟨by decide!, by decide!, by decide!, by decide!⟩

/-- C3, amended.  For a header `hdr` without a newline: on the output `hdr` alone each of
the four operations completes normally with the world unchanged; on `hdr` followed by a
single newline, line 1 is empty and each operation ends in the index-out-of-range panic
of its first slice access (`parts[1]`, `parts[1]`, `parts[2]`, `parts[12]`), with the
world unchanged. -/
theorem no_data_row (pf : List Char → Option ℚ) (w : World) (hdr : List Char)
    (h : Char.ofNat 10 ∉ hdr) :
    (JstatGccapacity pf (some hdr) w = .ok () w ∧
      JstatGcold pf (some hdr) w = .ok () w ∧
      JstatGcnew pf (some hdr) w = .ok () w ∧
      JstatGc pf (some hdr) w = .ok () w) ∧
    (JstatGccapacity pf (some (hdr ++ [Char.ofNat 10])) w = .fail (.panicIndex 1) w ∧
      JstatGcold pf (some (hdr ++ [Char.ofNat 10])) w = .fail (.panicIndex 1) w ∧
      JstatGcnew pf (some (hdr ++ [Char.ofNat 10])) w = .fail (.panicIndex 2) w ∧
      JstatGc pf (some (hdr ++ [Char.ofNat 10])) w = .fail (.panicIndex 12) w) := by
  have h0 := line1_noNewline hdr h
  have h1 := line1_trailingNewline hdr h
  refine ⟨⟨JstatGccapacity_noLine1 pf hdr w h0, JstatGcold_noLine1 pf hdr w h0,
    JstatGcnew_noLine1 pf hdr w h0, JstatGc_noLine1 pf hdr w h0⟩, ?_, ?_, ?_, ?_⟩
  · rw [JstatGccapacity_line1 pf _ [] w h1, gccapacityRow_apply]
    rfl
  · rw [JstatGcold_line1 pf _ [] w h1, gcoldRow_apply]
    rfl
  · rw [JstatGcnew_line1 pf _ [] w h1, gcnewRow_apply]
    rfl
  · rw [JstatGc_line1 pf _ [] w h1, gcRow_apply]
    rfl

/-- C3, amended, at a concrete input: the header of `jstat -gcold`. -/
theorem no_data_row_witness :
    Char.ofNat 10 ∉ "MC MU CCSC CCSU OC OU YGC FGC FGCT GCT".toList ∧
      JstatGcold parseDigits (some "MC MU CCSC CCSU OC OU YGC FGC FGCT GCT".toList) fresh =
        .ok () fresh ∧
      JstatGcold parseDigits
        (some ("MC MU CCSC CCSU OC OU YGC FGC FGCT GCT".toList ++ [Char.ofNat 10])) fresh =
        .fail (.panicIndex 1) fresh :=
  ⟨by decide,
    (no_data_row parseDigits fresh "MC MU CCSC CCSU OC OU YGC FGC FGCT GCT".toList
      (by decide)).1.2.1,
    (no_data_row parseDigits fresh "MC MU CCSC CCSU OC OU YGC FGC FGCT GCT".toList
      (by decide)).2.2.1⟩

/-! ## C4: a data row with a bad mapped field -/

/-- C4, as stated, fails.  A data row that is too short ends `JstatGcold` in the
index-out-of-range panic of `parts[1]`, which is no malformed-output error and carries
neither a metric nor a raw text.  A non-numeric field ends it in `log.Fatal` with the
error of `ParseFloat`, which carries the raw text only: the rows `0 x` (bad `metaUsed`,
column 1) and `0 1 2 3 4 x` (bad `oldUsed`, column 5) end in the same failure. -/
theorem bad_field_counterexample :
    JstatGcold parseDigits (report "0") fresh = .fail (.panicIndex 1) fresh ∧
      (¬ ∃ raw w', JstatGcold parseDigits (report "0") fresh = .fail (.fatalNumError raw) w') ∧
      JstatGcold parseDigits (report "0 x") fresh = .fail (.fatalNumError "x".toList) fresh ∧
      JstatGcold parseDigits (report "0 1 2 3 4 x") fresh =
        .fail (.fatalNumError "x".toList)
          ⟨{ fresh.e with metaUsed := 1 }, [(.metaUsed, 1)]⟩ := by
  have h : JstatGcold parseDigits (report "0") fresh = .fail (.panicIndex 1) fresh := by
    decide!
  refine ⟨h, ?_, by decide!, by decide!⟩
  rintro ⟨raw, w', h'⟩
  rw [h] at h'
  cases h'

/-- C4, amended.  Let line 1 of the output be there, and let some mapped column of the
operation be missing from it or hold a text that `ParseFloat` refuses.  Then the
operation does not complete normally.  It ends either in the index-out-of-range panic
of a missing mapped column, or in `log.Fatal` with the `ParseFloat` error, which
carries the raw text of a refused mapped column and no metric name; `JstatGc` may
instead end in the panic of `Counter.Add`. -/
theorem bad_field_aborts (pf : List Char → Option ℚ) (w : World) (out l : List Char)
    (hl : line1 out = some l) :
    ((∃ i ∈ gccapacityCols, numberAt pf (strings.Fields l) i = none) →
      ∃ f w', JstatGccapacity pf (some out) w = .fail f w' ∧
        rowFailure pf (strings.Fields l) gccapacityCols f) ∧
    ((∃ i ∈ gcoldCols, numberAt pf (strings.Fields l) i = none) →
      ∃ f w', JstatGcold pf (some out) w = .fail f w' ∧
        rowFailure pf (strings.Fields l) gcoldCols f) ∧
    ((∃ i ∈ gcnewCols, numberAt pf (strings.Fields l) i = none) →
      ∃ f w', JstatGcnew pf (some out) w = .fail f w' ∧
        rowFailure pf (strings.Fields l) gcnewCols f) ∧
    ((∃ i ∈ gcCols, numberAt pf (strings.Fields l) i = none) →
      ∃ f w', JstatGc pf (some out) w = .fail f w' ∧
        (rowFailure pf (strings.Fields l) gcCols f ∨ f = .panicCounterDecrease)) := by
  refine ⟨?_, ?_, ?_, ?_⟩
  · intro hb
    rw [JstatGccapacity_line1 pf out l w hl]
    exact gccapacityRow_bad pf _ w hb
  · intro hb
    rw [JstatGcold_line1 pf out l w hl]
    exact gcoldRow_bad pf _ w hb
  · intro hb
    rw [JstatGcnew_line1 pf out l w hl]
    exact gcnewRow_bad pf _ w hb
  · intro hb
    rw [JstatGc_line1 pf out l w hl]
    exact gcRow_bad pf _ w hb

/-- C4, amended, at a concrete input: a `jstat -gcold` data row whose column 5 is not a
number. -/
theorem bad_field_aborts_witness :
    line1 "MC MU\n0 1 2 3 4 x".toList = some "0 1 2 3 4 x".toList ∧
      numberAt parseDigits (strings.Fields "0 1 2 3 4 x".toList) 5 = none ∧
      ∃ f w', JstatGcold parseDigits (some "MC MU\n0 1 2 3 4 x".toList) fresh = .fail f w' ∧
        rowFailure parseDigits (strings.Fields "0 1 2 3 4 x".toList) gcoldCols f :=
  ⟨by decide!, by decide!,
    (bad_field_aborts parseDigits fresh "MC MU\n0 1 2 3 4 x".toList "0 1 2 3 4 x".toList
      (by decide!)).2.1 ⟨5, by decide, by decide!⟩⟩

/-! ## C5: gauges hold the latest parsed field -/

/-- C5, as stated, fails for `JstatGc`.  After a scrape whose data row carried 7 in
column 12, a data row with a number in every mapped column, 3 in column 12, does not
complete: `Counter.Add` panics before any gauge of the row is set. -/
theorem gauges_latest_counterexample :
    JstatGc parseDigits (gcReport "7" "2") fresh = .ok () after7 ∧
      line1 ("YGC\n0 1 2 3 4 5 6 7 8 9 10 11 3 13 2 15 16".toList) =
        some "0 1 2 3 4 5 6 7 8 9 10 11 3 13 2 15 16".toList ∧
      (∀ i ∈ gcCols, (numberAt parseDigits
        (strings.Fields "0 1 2 3 4 5 6 7 8 9 10 11 3 13 2 15 16".toList) i).isSome = true) ∧
      JstatGc parseDigits (some "YGC\n0 1 2 3 4 5 6 7 8 9 10 11 3 13 2 15 16".toList) after7 =
        .fail .panicCounterDecrease after7 := by
  refine ⟨by decide!, by decide!, by decide!, by decide!⟩

/-- C5, amended.  Let line 1 of the output be there.  For every prior world, when the
mapped columns of an operation all hold numbers, `JstatGcold`, `JstatGcnew` and
`JstatGccapacity` complete and leave each gauge equal to the number of its own column:
`metaUsed` 1, `oldCap` 4, `oldUsed` 5; `sv0Cap` 0, `sv1Cap` 1, `sv0Used` 2, `sv1Used` 3,
`edenCap` 7, `edenUsed` 8; `newMax` 1, `newCommit` 2, `oldMax` 7, `oldCommit` 8,
`metaMax` 11, `metaCommit` 12.  `JstatGc` does so for `ygcSec` 13, `fgcSec` 15,
`gcSec` 16 when moreover the numbers in columns 12 and 14 are not below `lastYgcTimes`
and `lastFgcTimes`. -/
theorem gauges_hold_latest (pf : List Char → Option ℚ) (w : World) (out l : List Char)
    (hl : line1 out = some l) :
    (∀ v1 v4 v5 : ℚ, numberAt pf (strings.Fields l) 1 = some v1 →
      numberAt pf (strings.Fields l) 4 = some v4 →
      numberAt pf (strings.Fields l) 5 = some v5 →
      ∃ w1, JstatGcold pf (some out) w = .ok () w1 ∧
        w1.e.metaUsed = v1 ∧ w1.e.oldCap = v4 ∧ w1.e.oldUsed = v5) ∧
    (∀ v0 v1 v2 v3 v7 v8 : ℚ, numberAt pf (strings.Fields l) 0 = some v0 →
      numberAt pf (strings.Fields l) 1 = some v1 →
      numberAt pf (strings.Fields l) 2 = some v2 →
      numberAt pf (strings.Fields l) 3 = some v3 →
      numberAt pf (strings.Fields l) 7 = some v7 →
      numberAt pf (strings.Fields l) 8 = some v8 →
      ∃ w1, JstatGcnew pf (some out) w = .ok () w1 ∧
        w1.e.sv0Cap = v0 ∧ w1.e.sv1Cap = v1 ∧ w1.e.sv0Used = v2 ∧ w1.e.sv1Used = v3 ∧
        w1.e.edenCap = v7 ∧ w1.e.edenUsed = v8) ∧
    (∀ v1 v2 v7 v8 v11 v12 : ℚ, numberAt pf (strings.Fields l) 1 = some v1 →
      numberAt pf (strings.Fields l) 2 = some v2 →
      numberAt pf (strings.Fields l) 7 = some v7 →
      numberAt pf (strings.Fields l) 8 = some v8 →
      numberAt pf (strings.Fields l) 11 = some v11 →
      numberAt pf (strings.Fields l) 12 = some v12 →
      ∃ w1, JstatGccapacity pf (some out) w = .ok () w1 ∧
        w1.e.newMax = v1 ∧ w1.e.newCommit = v2 ∧ w1.e.oldMax = v7 ∧ w1.e.oldCommit = v8 ∧
        w1.e.metaMax = v11 ∧ w1.e.metaCommit = v12) ∧
    (∀ v12 v13 v14 v15 v16 : ℚ, numberAt pf (strings.Fields l) 12 = some v12 →
      numberAt pf (strings.Fields l) 13 = some v13 →
      numberAt pf (strings.Fields l) 14 = some v14 →
      numberAt pf (strings.Fields l) 15 = some v15 →
      numberAt pf (strings.Fields l) 16 = some v16 →
      w.e.lastYgcTimes ≤ v12 → w.e.lastFgcTimes ≤ v14 →
      ∃ w1, JstatGc pf (some out) w = .ok () w1 ∧
        w1.e.ygcSec = v13 ∧ w1.e.fgcSec = v15 ∧ w1.e.gcSec = v16) := by
  refine ⟨?_, ?_, ?_, ?_⟩
  · intro v1 v4 v5 h1 h4 h5
    refine ⟨gcoldDone w v1 v5 v4, ?_, rfl, rfl, rfl⟩
    rw [JstatGcold_line1 pf out l w hl]
    exact gcoldRow_ok pf _ w v1 v5 v4 ((readField_ok_iff pf _ 1 v1).2 h1)
      ((readField_ok_iff pf _ 5 v5).2 h5) ((readField_ok_iff pf _ 4 v4).2 h4)
  · intro v0 v1 v2 v3 v7 v8 h0 h1 h2 h3 h7 h8
    refine ⟨gcnewDone w v2 v0 v3 v1 v8 v7, ?_, rfl, rfl, rfl, rfl, rfl, rfl⟩
    rw [JstatGcnew_line1 pf out l w hl]
    exact gcnewRow_ok pf _ w v2 v0 v3 v1 v8 v7 ((readField_ok_iff pf _ 2 v2).2 h2)
      ((readField_ok_iff pf _ 0 v0).2 h0) ((readField_ok_iff pf _ 3 v3).2 h3)
      ((readField_ok_iff pf _ 1 v1).2 h1) ((readField_ok_iff pf _ 8 v8).2 h8)
      ((readField_ok_iff pf _ 7 v7).2 h7)
  · intro v1 v2 v7 v8 v11 v12 h1 h2 h7 h8 h11 h12
    refine ⟨gccapacityDone w v1 v2 v7 v8 v11 v12, ?_, rfl, rfl, rfl, rfl, rfl, rfl⟩
    rw [JstatGccapacity_line1 pf out l w hl]
    exact gccapacityRow_ok pf _ w v1 v2 v7 v8 v11 v12 ((readField_ok_iff pf _ 1 v1).2 h1)
      ((readField_ok_iff pf _ 2 v2).2 h2) ((readField_ok_iff pf _ 7 v7).2 h7)
      ((readField_ok_iff pf _ 8 v8).2 h8) ((readField_ok_iff pf _ 11 v11).2 h11)
      ((readField_ok_iff pf _ 12 v12).2 h12)
  · intro v12 v13 v14 v15 v16 h12 h13 h14 h15 h16 hy hf
    refine ⟨gcDone w v12 v13 v14 v15 v16, ?_, rfl, rfl, rfl⟩
    rw [JstatGc_line1 pf out l w hl]
    exact gcRow_ok pf _ w v12 v13 v14 v15 v16 ((readField_ok_iff pf _ 12 v12).2 h12)
      ((readField_ok_iff pf _ 13 v13).2 h13) ((readField_ok_iff pf _ 14 v14).2 h14)
      ((readField_ok_iff pf _ 15 v15).2 h15) ((readField_ok_iff pf _ 16 v16).2 h16) hy hf

/-- C5, amended, at a concrete input: a `jstat -gcold` data row and a `jstat -gc` data
row, both read after an earlier scrape that left `lastYgcTimes = 7` and
`lastFgcTimes = 2`. -/
theorem gauges_hold_latest_witness :
    (line1 "MC MU\n50 61 72 83 94 105".toList = some "50 61 72 83 94 105".toList ∧
      numberAt parseDigits (strings.Fields "50 61 72 83 94 105".toList) 1 = some 61 ∧
      numberAt parseDigits (strings.Fields "50 61 72 83 94 105".toList) 4 = some 94 ∧
      numberAt parseDigits (strings.Fields "50 61 72 83 94 105".toList) 5 = some 105 ∧
      ∃ w1, JstatGcold parseDigits (some "MC MU\n50 61 72 83 94 105".toList) after7 =
          .ok () w1 ∧
        w1.e.metaUsed = 61 ∧ w1.e.oldCap = 94 ∧ w1.e.oldUsed = 105) ∧
    (line1 "YGC\n0 1 2 3 4 5 6 7 8 9 10 11 9 21 2 23 44".toList =
        some "0 1 2 3 4 5 6 7 8 9 10 11 9 21 2 23 44".toList ∧
      after7.e.lastYgcTimes ≤ 9 ∧ after7.e.lastFgcTimes ≤ 2 ∧
      ∃ w1, JstatGc parseDigits (some "YGC\n0 1 2 3 4 5 6 7 8 9 10 11 9 21 2 23 44".toList)
          after7 = .ok () w1 ∧
        w1.e.ygcSec = 21 ∧ w1.e.fgcSec = 23 ∧ w1.e.gcSec = 44) :=
  ⟨⟨by decide!, by decide!, by decide!, by decide!,
      (gauges_hold_latest parseDigits after7 "MC MU\n50 61 72 83 94 105".toList
        "50 61 72 83 94 105".toList (by decide!)).1 61 94 105 (by decide!) (by decide!)
        (by decide!)⟩,
    ⟨by decide!, by decide!, by decide!,
      (gauges_hold_latest parseDigits after7
        "YGC\n0 1 2 3 4 5 6 7 8 9 10 11 9 21 2 23 44".toList
        "0 1 2 3 4 5 6 7 8 9 10 11 9 21 2 23 44".toList (by decide!)).2.2.2 9 21 2 23 44
        (by decide!) (by decide!) (by decide!) (by decide!) (by decide!) (by decide!)
        (by decide!)⟩⟩

/-! ## C6: scraping the same outputs twice -/

/-- C6, as stated, fails.  The exporter `afterCollect` is reached from a fresh one by a
`Collect` that read 100 in column 12.  From it, a `Collect` on four well-formed outputs
that carry 40 in column 12 does not complete: `Counter.Add` panics, so `Collect` cannot
be run twice.  With non-finite values the second scrape is no repetition either: in
`float64`, the value `+Inf` observed twice gives the total `+Inf` and then NaN. -/
theorem Collect_twice_counterexample :
    Collect parseDigits sameRows fresh = .ok () afterCollect ∧
      line1 ("YGC\n0 1 2 3 4 5 6 7 8 9 10 11 40 13 10 15 16\n".toList) =
        some "0 1 2 3 4 5 6 7 8 9 10 11 40 13 10 15 16".toList ∧
      (∀ i ∈ gccapacityCols ++ gcoldCols ++ gcnewCols ++ gcCols, (numberAt parseDigits
        (strings.Fields "0 1 2 3 4 5 6 7 8 9 10 11 40 13 10 15 16".toList) i).isSome = true) ∧
      (Collect parseDigits lowerRows afterCollect =
        .fail .panicCounterDecrease (Collect parseDigits lowerRows afterCollect).world) ∧
      (¬ ∃ w1 w2, Collect parseDigits lowerRows afterCollect = .ok () w1 ∧
        Collect parseDigits lowerRows w1 = .ok () w2 ∧ w2.e = w1.e) ∧
      reconciles64 ⟨.fin 0, .fin 0⟩ [.inf false, .inf false] =
        some [⟨.inf false, .inf false⟩, ⟨.nan, .inf false⟩] := by
  have h : Collect parseDigits lowerRows afterCollect =
      .fail .panicCounterDecrease (Collect parseDigits lowerRows afterCollect).world := by
    decide!
  refine ⟨by decide!, by decide!, by decide!, h, ?_, by decide!⟩
  rintro ⟨w1, w2, h1, _⟩
  rw [h] at h1
  cases h1

/-- C6, amended.  Idempotence under no change.  When a first `Collect` completes on four
outputs, with finite numbers parsed, a second `Collect` on the same outputs completes
as well and leaves the exporter exactly as the first left it: every gauge, both counter
totals and both last-observed values are the same.  The delta that the second `Collect`
passes to `Counter.Add`, the number of column 12 (resp. 14) minus the last-observed
value left by the first, is zero. -/
theorem Collect_twice (pf : List Char → Option ℚ) (r : Reports) (w w1 : World)
    (h : Collect pf r w = .ok () w1) :
    (∃ w2, Collect pf r w1 = .ok () w2 ∧ w2.e = w1.e ∧
      w2.e.ygcTimes = w1.e.ygcTimes ∧ w2.e.fgcTimes = w1.e.fgcTimes ∧
      w2.e.lastYgcTimes = w1.e.lastYgcTimes ∧ w2.e.lastFgcTimes = w1.e.lastFgcTimes) ∧
    (∀ v : ℚ, (counterColumn pf 12 r.gc = some v → v - w1.e.lastYgcTimes = 0) ∧
      (counterColumn pf 14 r.gc = some v → v - w1.e.lastFgcTimes = 0)) := by
  obtain ⟨wa, wb, wc, ha, hb, hc, hd⟩ := Collect_inv pf r w w1 h
  have fb := JstatGcold_frame pf r.gcold wa wb hb
  have fc := JstatGcnew_frame pf r.gcnew wb wc hc
  have fd := JstatGc_frame pf r.gc wc w1 hd
  obtain ⟨xa, ra, ea⟩ := JstatGccapacity_rerun pf r.gccapacity w wa w1 ha
    ((show w1.e.newMax = wc.e.newMax from by
        have q := congrArg Exporter.newMax fd
        exact q).trans
      ((show wc.e.newMax = wb.e.newMax from by
        have q := congrArg Exporter.newMax fc
        exact q).trans
      (show wb.e.newMax = wa.e.newMax from by
        have q := congrArg Exporter.newMax fb
        exact q)))
    ((show w1.e.newCommit = wc.e.newCommit from by
        have q := congrArg Exporter.newCommit fd
        exact q).trans
      ((show wc.e.newCommit = wb.e.newCommit from by
        have q := congrArg Exporter.newCommit fc
        exact q).trans
      (show wb.e.newCommit = wa.e.newCommit from by
        have q := congrArg Exporter.newCommit fb
        exact q)))
    ((show w1.e.oldMax = wc.e.oldMax from by
        have q := congrArg Exporter.oldMax fd
        exact q).trans
      ((show wc.e.oldMax = wb.e.oldMax from by
        have q := congrArg Exporter.oldMax fc
        exact q).trans
      (show wb.e.oldMax = wa.e.oldMax from by
        have q := congrArg Exporter.oldMax fb
        exact q)))
    ((show w1.e.oldCommit = wc.e.oldCommit from by
        have q := congrArg Exporter.oldCommit fd
        exact q).trans
      ((show wc.e.oldCommit = wb.e.oldCommit from by
        have q := congrArg Exporter.oldCommit fc
        exact q).trans
      (show wb.e.oldCommit = wa.e.oldCommit from by
        have q := congrArg Exporter.oldCommit fb
        exact q)))
    ((show w1.e.metaMax = wc.e.metaMax from by
        have q := congrArg Exporter.metaMax fd
        exact q).trans
      ((show wc.e.metaMax = wb.e.metaMax from by
        have q := congrArg Exporter.metaMax fc
        exact q).trans
      (show wb.e.metaMax = wa.e.metaMax from by
        have q := congrArg Exporter.metaMax fb
        exact q)))
    ((show w1.e.metaCommit = wc.e.metaCommit from by
        have q := congrArg Exporter.metaCommit fd
        exact q).trans
      ((show wc.e.metaCommit = wb.e.metaCommit from by
        have q := congrArg Exporter.metaCommit fc
        exact q).trans
      (show wb.e.metaCommit = wa.e.metaCommit from by
        have q := congrArg Exporter.metaCommit fb
        exact q)))
  obtain ⟨xb, rb, eb⟩ := JstatGcold_rerun pf r.gcold wa wb xa hb
    ((show xa.e.metaUsed = w1.e.metaUsed from by
        have q := congrArg Exporter.metaUsed ea
        exact q).trans
      ((show w1.e.metaUsed = wc.e.metaUsed from by
        have q := congrArg Exporter.metaUsed fd
        exact q).trans
      (show wc.e.metaUsed = wb.e.metaUsed from by
        have q := congrArg Exporter.metaUsed fc
        exact q)))
    ((show xa.e.oldUsed = w1.e.oldUsed from by
        have q := congrArg Exporter.oldUsed ea
        exact q).trans
      ((show w1.e.oldUsed = wc.e.oldUsed from by
        have q := congrArg Exporter.oldUsed fd
        exact q).trans
      (show wc.e.oldUsed = wb.e.oldUsed from by
        have q := congrArg Exporter.oldUsed fc
        exact q)))
    ((show xa.e.oldCap = w1.e.oldCap from by
        have q := congrArg Exporter.oldCap ea
        exact q).trans
      ((show w1.e.oldCap = wc.e.oldCap from by
        have q := congrArg Exporter.oldCap fd
        exact q).trans
      (show wc.e.oldCap = wb.e.oldCap from by
        have q := congrArg Exporter.oldCap fc
        exact q)))
  have eab : xb.e = w1.e := eb.trans ea
  obtain ⟨xc, rc, ec⟩ := JstatGcnew_rerun pf r.gcnew wb wc xb hc
    ((show xb.e.sv0Used = w1.e.sv0Used from by
        have q := congrArg Exporter.sv0Used eab
        exact q).trans
      (show w1.e.sv0Used = wc.e.sv0Used from by
        have q := congrArg Exporter.sv0Used fd
        exact q))
    ((show xb.e.sv0Cap = w1.e.sv0Cap from by
        have q := congrArg Exporter.sv0Cap eab
        exact q).trans
      (show w1.e.sv0Cap = wc.e.sv0Cap from by
        have q := congrArg Exporter.sv0Cap fd
        exact q))
    ((show xb.e.sv1Used = w1.e.sv1Used from by
        have q := congrArg Exporter.sv1Used eab
        exact q).trans
      (show w1.e.sv1Used = wc.e.sv1Used from by
        have q := congrArg Exporter.sv1Used fd
        exact q))
    ((show xb.e.sv1Cap = w1.e.sv1Cap from by
        have q := congrArg Exporter.sv1Cap eab
        exact q).trans
      (show w1.e.sv1Cap = wc.e.sv1Cap from by
        have q := congrArg Exporter.sv1Cap fd
        exact q))
    ((show xb.e.edenUsed = w1.e.edenUsed from by
        have q := congrArg Exporter.edenUsed eab
        exact q).trans
      (show w1.e.edenUsed = wc.e.edenUsed from by
        have q := congrArg Exporter.edenUsed fd
        exact q))
    ((show xb.e.edenCap = w1.e.edenCap from by
        have q := congrArg Exporter.edenCap eab
        exact q).trans
      (show w1.e.edenCap = wc.e.edenCap from by
        have q := congrArg Exporter.edenCap fd
        exact q))
  have eac : xc.e = w1.e := ec.trans eab
  obtain ⟨xd, rd, ed⟩ := JstatGc_rerun pf r.gc wc w1 xc hd
    (show xc.e.lastYgcTimes = w1.e.lastYgcTimes from by
        have q := congrArg Exporter.lastYgcTimes eac
        exact q)
    (show xc.e.lastFgcTimes = w1.e.lastFgcTimes from by
        have q := congrArg Exporter.lastFgcTimes eac
        exact q)
    (show xc.e.ygcSec = w1.e.ygcSec from by
        have q := congrArg Exporter.ygcSec eac
        exact q)
    (show xc.e.fgcSec = w1.e.fgcSec from by
        have q := congrArg Exporter.fgcSec eac
        exact q)
    (show xc.e.gcSec = w1.e.gcSec from by
        have q := congrArg Exporter.gcSec eac
        exact q)
  have ead : xd.e = w1.e := ed.trans eac
  refine ⟨⟨xd, Collect_ok pf r w1 xa xb xc xd ra rb rc rd, ead, ?_, ?_, ?_, ?_⟩, ?_⟩
  · rw [ead]
  · rw [ead]
  · rw [ead]
  · rw [ead]
  · intro v
    constructor
    · intro hv
      rw [(JstatGc_step_ygc pf r.gc wc w1 v hd hv).1]
      exact sub_self v
    · intro hv
      rw [(JstatGc_step_fgc pf r.gc wc w1 v hd hv).1]
      exact sub_self v

/-- C6, amended, at a concrete input: `Collect` on four example reports, from a fresh exporter. -/
theorem Collect_twice_witness :
    Collect parseDigits sameRows fresh = .ok () afterCollect ∧
      (∃ w2, Collect parseDigits sameRows afterCollect = .ok () w2 ∧ w2.e = afterCollect.e ∧
        w2.e.ygcTimes = afterCollect.e.ygcTimes ∧
        w2.e.fgcTimes = afterCollect.e.fgcTimes ∧
        w2.e.lastYgcTimes = afterCollect.e.lastYgcTimes ∧
        w2.e.lastFgcTimes = afterCollect.e.lastFgcTimes) ∧
      afterCollect.e.ygcTimes = 100 ∧ afterCollect.e.fgcTimes = 10 :=
  ⟨by decide!, (Collect_twice parseDigits sameRows fresh afterCollect (by decide!)).1,
    by decide!, by decide!⟩

/-! ## C7: only the mapped fields of line 1 are consumed -/

/-- C7. Only line 1 of a report is consumed.  Two outputs with the same line 1 (or both
without one) give each of the four operations, started from the same world, the same
outcome: the same normal or abnormal end, the same exporter, the same channel.  The
header and the lines after line 1 play no part.  Moreover two outputs whose lines 1
have the same fields at the mapped columns of an operation give that operation the
same outcome: the fields at the other columns play no part. -/
theorem only_line1_matters (pf : List Char → Option ℚ) (w : World) (out1 out2 : List Char) :
    (line1 out1 = line1 out2 →
      JstatGccapacity pf (some out1) w = JstatGccapacity pf (some out2) w ∧
      JstatGcold pf (some out1) w = JstatGcold pf (some out2) w ∧
      JstatGcnew pf (some out1) w = JstatGcnew pf (some out2) w ∧
      JstatGc pf (some out1) w = JstatGc pf (some out2) w) ∧
    (∀ l1 l2 : List Char, line1 out1 = some l1 → line1 out2 = some l2 →
      ((∀ i ∈ gccapacityCols, (strings.Fields l1)[i]? = (strings.Fields l2)[i]?) →
        JstatGccapacity pf (some out1) w = JstatGccapacity pf (some out2) w) ∧
      ((∀ i ∈ gcoldCols, (strings.Fields l1)[i]? = (strings.Fields l2)[i]?) →
        JstatGcold pf (some out1) w = JstatGcold pf (some out2) w) ∧
      ((∀ i ∈ gcnewCols, (strings.Fields l1)[i]? = (strings.Fields l2)[i]?) →
        JstatGcnew pf (some out1) w = JstatGcnew pf (some out2) w) ∧
      ((∀ i ∈ gcCols, (strings.Fields l1)[i]? = (strings.Fields l2)[i]?) →
        JstatGc pf (some out1) w = JstatGc pf (some out2) w)) := by
  constructor
  · intro h
    exact ⟨JstatGccapacity_sameLine1 pf out1 out2 w h, JstatGcold_sameLine1 pf out1 out2 w h,
      JstatGcnew_sameLine1 pf out1 out2 w h, JstatGc_sameLine1 pf out1 out2 w h⟩
  · intro l1 l2 h1 h2
    exact ⟨JstatGccapacity_congr pf out1 out2 l1 l2 w h1 h2,
      JstatGcold_congr pf out1 out2 l1 l2 w h1 h2,
      JstatGcnew_congr pf out1 out2 l1 l2 w h1 h2,
      JstatGc_congr pf out1 out2 l1 l2 w h1 h2⟩

/-- C7, at a concrete input: two `jstat -gcold` outputs with different headers and
different trailing lines but the same line 1, and two whose lines 1 differ only at
columns that `JstatGcold` does not read. -/
theorem only_line1_matters_witness :
    (line1 "MC MU\n0 1 2 3 4 5\n9 9 9".toList = line1 "header\n0 1 2 3 4 5".toList ∧
      JstatGcold parseDigits (some "MC MU\n0 1 2 3 4 5\n9 9 9".toList) fresh =
        JstatGcold parseDigits (some "header\n0 1 2 3 4 5".toList) fresh) ∧
    (line1 "MC MU\n0 1 2 3 4 5".toList = some "0 1 2 3 4 5".toList ∧
      line1 "MC MU\n7 1 x y 4 5 6".toList = some "7 1 x y 4 5 6".toList ∧
      (∀ i ∈ gcoldCols, (strings.Fields "0 1 2 3 4 5".toList)[i]? =
        (strings.Fields "7 1 x y 4 5 6".toList)[i]?) ∧
      JstatGcold parseDigits (some "MC MU\n0 1 2 3 4 5".toList) fresh =
        JstatGcold parseDigits (some "MC MU\n7 1 x y 4 5 6".toList) fresh) :=
  ⟨⟨by decide,
      ((only_line1_matters parseDigits fresh "MC MU\n0 1 2 3 4 5\n9 9 9".toList
        "header\n0 1 2 3 4 5".toList).1 (by decide)).2.1⟩,
    ⟨by decide, by decide, by decide,
      ((only_line1_matters parseDigits fresh "MC MU\n0 1 2 3 4 5".toList
        "MC MU\n7 1 x y 4 5 6".toList).2 "0 1 2 3 4 5".toList "7 1 x y 4 5 6".toList
        (by decide) (by decide)).2.1 (by decide)⟩⟩

/-! ## C8: what has happened when `Collect` fails -/

/-- C8, as stated, fails.  When the command of the second report fails, `Collect` ends in
`log.Fatal` after the six gauges of the first report have been set and sent.  When
column 13 of the aggregate-GC row is not a number, `Collect` ends in `log.Fatal` after
`ygcTimes` and `lastYgcTimes` have been updated, so the counter state has changed.  When
every output lacks its data row, `Collect` does not fail at all. -/
theorem Collect_failure_counterexample :
    Collect parseDigits gcoldCommandFails fresh =
        .fail .fatalExec (gccapacityDone fresh 1 2 7 8 11 100) ∧
      (gccapacityDone fresh 1 2 7 8 11 100).e.newMax = 1 ∧ fresh.e.newMax = 0 ∧
      (gccapacityDone fresh 1 2 7 8 11 100).ch.length = 6 ∧ fresh.ch = [] ∧
      (∃ w', Collect parseDigits gcColumn13Bad fresh = .fail (.fatalNumError "x".toList) w' ∧
        counterState w'.e = (100, 100, 0, 0) ∧ counterState fresh.e = (0, 0, 0, 0)) ∧
      Collect parseDigits headersOnly fresh = .ok () fresh := by
  refine ⟨by decide!, by decide!, by decide!, by decide!, by decide!,
    ⟨(Collect parseDigits gcColumn13Bad fresh).world, by decide!, by decide!, by decide!⟩,
    by decide!⟩

theorem Collect_first_three (pf : List Char → Option ℚ) (r : Reports) (w : World) :
    (∃ f w', Collect pf r w = .fail f w' ∧ counterState w'.e = counterState w.e) ∨
      ∃ w1 w2 w3, JstatGccapacity pf r.gccapacity w = .ok () w1 ∧
        JstatGcold pf r.gcold w1 = .ok () w2 ∧ JstatGcnew pf r.gcnew w2 = .ok () w3 := by
  have c1 := JstatGccapacity_counterState pf r.gccapacity w
  cases h1 : JstatGccapacity pf r.gccapacity w with
  | fail f w' =>
    rw [h1] at c1
    exact Or.inl ⟨f, w', Collect_gccapacity_fail pf r w w' f h1, c1⟩
  | ok a w1 =>
    rw [h1] at c1
    have c2 := JstatGcold_counterState pf r.gcold w1
    cases h2 : JstatGcold pf r.gcold w1 with
    | fail f w' =>
      rw [h2] at c2
      exact Or.inl ⟨f, w', Collect_gcold_fail pf r w w1 w' f h1 h2, c2.trans c1⟩
    | ok b w2 =>
      rw [h2] at c2
      have c3 := JstatGcnew_counterState pf r.gcnew w2
      cases h3 : JstatGcnew pf r.gcnew w2 with
      | fail f w' =>
        rw [h3] at c3
        exact Or.inl ⟨f, w', Collect_gcnew_fail pf r w w1 w2 w' f h1 h2 h3,
          c3.trans (c2.trans c1)⟩
      | ok c w3 => exact Or.inr ⟨w1, w2, w3, rfl, h2, h3⟩

/-- C8, amended.  When, for at least one of the four reports, the command fails or line 1
of the output lacks a mapped column or has a text there that is not a number, `Collect`
as a whole fails.  When that report is one of the first three, the counter state
(both totals, both last-observed values) at the point of failure is the one before the
call.  When the first command fails, nothing at all has been set or sent. -/
theorem Collect_failure (pf : List Char → Option ℚ) (r : Reports) (w : World) :
    (badReport pf gccapacityCols r.gccapacity ∨ badReport pf gcoldCols r.gcold ∨
        badReport pf gcnewCols r.gcnew ∨ badReport pf gcCols r.gc →
      ∃ f w', Collect pf r w = .fail f w') ∧
    (badReport pf gccapacityCols r.gccapacity ∨ badReport pf gcoldCols r.gcold ∨
        badReport pf gcnewCols r.gcnew →
      ∃ f w', Collect pf r w = .fail f w' ∧ counterState w'.e = counterState w.e) ∧
    (r.gccapacity = none → Collect pf r w = .fail .fatalExec w) := by
  have key : badReport pf gccapacityCols r.gccapacity ∨ badReport pf gcoldCols r.gcold ∨
      badReport pf gcnewCols r.gcnew →
      ∃ f w', Collect pf r w = .fail f w' ∧ counterState w'.e = counterState w.e := by
    intro hb
    rcases Collect_first_three pf r w with hfail | ⟨w1, w2, w3, h1, h2, h3⟩
    · exact hfail
    · exfalso
      rcases hb with hb | hb | hb
      · obtain ⟨f, w', hf⟩ := JstatGccapacity_bad pf r.gccapacity w hb
        rw [h1] at hf
        cases hf
      · obtain ⟨f, w', hf⟩ := JstatGcold_bad pf r.gcold w1 hb
        rw [h2] at hf
        cases hf
      · obtain ⟨f, w', hf⟩ := JstatGcnew_bad pf r.gcnew w2 hb
        rw [h3] at hf
        cases hf
  refine ⟨?_, key, ?_⟩
  · intro hb
    rcases hb with hb | hb | hb | hb
    · obtain ⟨f, w', hf, _⟩ := key (Or.inl hb)
      exact ⟨f, w', hf⟩
    · obtain ⟨f, w', hf, _⟩ := key (Or.inr (Or.inl hb))
      exact ⟨f, w', hf⟩
    · obtain ⟨f, w', hf, _⟩ := key (Or.inr (Or.inr hb))
      exact ⟨f, w', hf⟩
    · rcases Collect_first_three pf r w with ⟨f, w', hf, _⟩ | ⟨w1, w2, w3, h1, h2, h3⟩
      · exact ⟨f, w', hf⟩
      · obtain ⟨f, w', hf⟩ := JstatGc_bad pf r.gc w3 hb
        exact ⟨f, w', Collect_gc_fail pf r w w1 w2 w3 w' f h1 h2 h3 hf⟩
  · intro hn
    apply Collect_gccapacity_fail
    rw [hn]
    rfl

/-- C8, amended, at a concrete input: the command of the old-generation report fails. -/
theorem Collect_failure_witness :
    badReport parseDigits gcoldCols gcoldCommandFails.gcold ∧
      ∃ f w', Collect parseDigits gcoldCommandFails fresh = .fail f w' ∧
        counterState w'.e = counterState fresh.e :=
  ⟨Or.inl rfl,
    (Collect_failure parseDigits gcoldCommandFails fresh).2.1 (Or.inr (Or.inl (Or.inl rfl)))⟩

/-! ## C9: who writes the counter state -/

/-- C9, as stated, fails.  On an output that is a header and nothing else, `JstatGc`
completes normally without assigning `lastYgcTimes` or `lastFgcTimes`: there is no
line 1, hence no column 12 or 14, and the world is the one before the call (here with
`lastYgcTimes = 7` and `lastFgcTimes = 2` from an earlier scrape). -/
theorem JstatGc_assigns_counterexample :
    JstatGc parseDigits (some "S0C S1C S0U".toList) after7 = .ok () after7 ∧
      line1 "S0C S1C S0U".toList = none ∧
      counterColumn parseDigits 12 (some "S0C S1C S0U".toList) = none ∧
      counterColumn parseDigits 14 (some "S0C S1C S0U".toList) = none ∧
      after7.e.lastYgcTimes = 7 ∧ after7.e.lastFgcTimes = 2 := by
  refine ⟨by decide!, by decide!, by decide!, by decide!, by decide!, by decide!⟩

/-- C9, amended.  For every world and every output, `JstatGccapacity`, `JstatGcold` and
`JstatGcnew` leave `lastYgcTimes`, `lastFgcTimes` and both counter totals unchanged,
however they end.  A successful `JstatGc` on an output that has a line 1 leaves the
exporter changed in exactly seven fields: `lastYgcTimes` and `lastFgcTimes` are the
numbers of columns 12 and 14, both totals have their delta added, and `ygcSec`,
`fgcSec`, `gcSec` are set; every gauge of the other three reports is unchanged.  A
successful `JstatGc` on an output without a line 1 changes nothing.  After a
successful `Collect` whose aggregate-GC output has a line 1, `lastYgcTimes` and
`lastFgcTimes` are the numbers of its columns 12 and 14. -/
theorem counter_state_writers (pf : List Char → Option ℚ) (r : Option (List Char))
    (w : World) :
    (counterState (JstatGccapacity pf r w).world.e = counterState w.e ∧
      counterState (JstatGcold pf r w).world.e = counterState w.e ∧
      counterState (JstatGcnew pf r w).world.e = counterState w.e) ∧
    (∀ (out l : List Char) (w1 : World), r = some out → line1 out = some l →
      JstatGc pf r w = .ok () w1 →
      ∃ v12 v13 v14 v15 v16 : ℚ,
        numberAt pf (strings.Fields l) 12 = some v12 ∧
        numberAt pf (strings.Fields l) 14 = some v14 ∧
        w1 = gcDone w v12 v13 v14 v15 v16 ∧
        w1.e.lastYgcTimes = v12 ∧ w1.e.lastFgcTimes = v14 ∧
        otherGauges w1.e = otherGauges w.e) ∧
    (∀ (out : List Char) (w1 : World), r = some out → line1 out = none →
      JstatGc pf r w = .ok () w1 → w1 = w) ∧
    (∀ (rs : Reports) (out l : List Char) (w1 : World), rs.gc = some out →
      line1 out = some l → Collect pf rs w = .ok () w1 →
      numberAt pf (strings.Fields l) 12 = some w1.e.lastYgcTimes ∧
      numberAt pf (strings.Fields l) 14 = some w1.e.lastFgcTimes) := by
  have gcCase : ∀ (w0 : World) (out l : List Char) (w1 : World), line1 out = some l →
      JstatGc pf (some out) w0 = .ok () w1 →
      ∃ v12 v13 v14 v15 v16 : ℚ,
        numberAt pf (strings.Fields l) 12 = some v12 ∧
        numberAt pf (strings.Fields l) 14 = some v14 ∧
        w1 = gcDone w0 v12 v13 v14 v15 v16 := by
    intro w0 out l w1 hl h
    rw [JstatGc_line1 pf out l w0 hl] at h
    obtain ⟨v12, v13, v14, v15, v16, h12, _, h14, _, _, _, _, e⟩ := gcRow_inv pf _ w0 w1 h
    exact ⟨v12, v13, v14, v15, v16, (readField_ok_iff pf _ 12 v12).1 h12,
      (readField_ok_iff pf _ 14 v14).1 h14, e⟩
  refine ⟨⟨JstatGccapacity_counterState pf r w, JstatGcold_counterState pf r w,
    JstatGcnew_counterState pf r w⟩, ?_, ?_, ?_⟩
  · intro out l w1 hr hl h
    subst hr
    obtain ⟨v12, v13, v14, v15, v16, h12, h14, e⟩ := gcCase w out l w1 hl h
    subst e
    exact ⟨v12, v13, v14, v15, v16, h12, h14, rfl, rfl, rfl, rfl⟩
  · intro out w1 hr hl h
    subst hr
    rw [JstatGc_noLine1 pf out w hl] at h
    exact ((Outcome.ok.inj h).2).symm
  · intro rs out l w1 hr hl h
    obtain ⟨wa, wb, wc, _, _, _, hd⟩ := Collect_inv pf rs w w1 h
    rw [hr] at hd
    obtain ⟨v12, v13, v14, v15, v16, h12, h14, e⟩ := gcCase wc out l w1 hl hd
    subst e
    exact ⟨h12, h14⟩

/-- C9, amended, at a concrete input: a first scrape of the aggregate-GC report. -/
theorem counter_state_writers_witness :
    gcReport "7" "2" = some
        ("S0C S1C S0U S1U EC EU OC OU MC MU CCSC CCSU YGC YGCT FGC FGCT GCT\n" ++
          "0 1 2 3 4 5 6 7 8 9 10 11 7 13 2 15 16\n").toList ∧
      line1 ("S0C S1C S0U S1U EC EU OC OU MC MU CCSC CCSU YGC YGCT FGC FGCT GCT\n" ++
          "0 1 2 3 4 5 6 7 8 9 10 11 7 13 2 15 16\n").toList =
        some "0 1 2 3 4 5 6 7 8 9 10 11 7 13 2 15 16".toList ∧
      JstatGc parseDigits (gcReport "7" "2") fresh = .ok () after7 ∧
      ∃ v12 v13 v14 v15 v16 : ℚ,
        numberAt parseDigits
          (strings.Fields "0 1 2 3 4 5 6 7 8 9 10 11 7 13 2 15 16".toList) 12 = some v12 ∧
        numberAt parseDigits
          (strings.Fields "0 1 2 3 4 5 6 7 8 9 10 11 7 13 2 15 16".toList) 14 = some v14 ∧
        after7 = gcDone fresh v12 v13 v14 v15 v16 ∧
        after7.e.lastYgcTimes = v12 ∧ after7.e.lastFgcTimes = v14 ∧
        otherGauges after7.e = otherGauges fresh.e :=
  ⟨by decide, by decide, by decide!,
    (counter_state_writers parseDigits (gcReport "7" "2") fresh).2.1
      ("S0C S1C S0U S1U EC EU OC OU MC MU CCSC CCSU YGC YGCT FGC FGCT GCT\n" ++
          "0 1 2 3 4 5 6 7 8 9 10 11 7 13 2 15 16\n").toList
      "0 1 2 3 4 5 6 7 8 9 10 11 7 13 2 15 16".toList after7 (by decide)
      (by decide) (by decide!)⟩

/-! ## C10: the counter total tracks the last observed value -/

theorem Collect_keeps_offsets (pf : List Char → Option ℚ) (r : Reports) (w w1 : World)
    (h : Collect pf r w = .ok () w1) :
    w1.e.ygcTimes - w1.e.lastYgcTimes = w.e.ygcTimes - w.e.lastYgcTimes ∧
      w1.e.fgcTimes - w1.e.lastFgcTimes = w.e.fgcTimes - w.e.lastFgcTimes := by
  obtain ⟨wa, wb, wc, ha, hb, hc, hd⟩ := Collect_inv pf r w w1 h
  have ca := JstatGccapacity_counterState pf r.gccapacity w
  have cb := JstatGcold_counterState pf r.gcold wa
  have cc := JstatGcnew_counterState pf r.gcnew wb
  rw [ha] at ca
  rw [hb] at cb
  rw [hc] at cc
  have c : counterState wc.e = counterState w.e := cc.trans (cb.trans ca)
  simp only [counterState, Outcome.world, Prod.mk.injEq] at c
  obtain ⟨c1, c2, c3, c4⟩ := c
  obtain ⟨k1, k2⟩ := JstatGc_keeps_offsets pf r.gc wc w1 hd
  rw [k1, k2, c1, c2, c3, c4]
  exact ⟨rfl, rfl⟩

theorem collects_keeps_offsets (pf : List Char → Option ℚ) :
    ∀ (rs : List Reports) (e0 e : Exporter), collects pf e0 rs = some e →
      e.ygcTimes - e.lastYgcTimes = e0.ygcTimes - e0.lastYgcTimes ∧
        e.fgcTimes - e.lastFgcTimes = e0.fgcTimes - e0.lastFgcTimes := by
  intro rs
  induction rs with
  | nil =>
    intro e0 e h
    simp only [collects, Option.some.injEq] at h
    subst h
    exact ⟨rfl, rfl⟩
  | cons r rest ih =>
    intro e0 e h
    simp only [collects] at h
    cases hc : Collect pf r ⟨e0, []⟩ with
    | fail f w' => simp [hc] at h
    | ok a w1 =>
      simp only [hc] at h
      obtain ⟨i1, i2⟩ := ih w1.e e h
      obtain ⟨k1, k2⟩ := Collect_keeps_offsets pf r ⟨e0, []⟩ w1 hc
      exact ⟨i1.trans k1, i2.trans k2⟩

theorem collects_snoc (pf : List Char → Option ℚ) (r : Reports) :
    ∀ (rs : List Reports) (e0 e : Exporter), collects pf e0 (rs ++ [r]) = some e →
      ∃ e1 w1, collects pf e0 rs = some e1 ∧ Collect pf r ⟨e1, []⟩ = .ok () w1 ∧
        w1.e = e := by
  intro rs
  induction rs with
  | nil =>
    intro e0 e h
    simp only [List.nil_append, collects] at h
    cases hc : Collect pf r ⟨e0, []⟩ with
    | fail f w' => simp [hc] at h
    | ok a w1 =>
      simp only [hc, Option.some.injEq] at h
      exact ⟨e0, w1, rfl, hc, h⟩
  | cons r0 rest ih =>
    intro e0 e h
    simp only [List.cons_append, collects] at h
    cases hc : Collect pf r0 ⟨e0, []⟩ with
    | fail f w' => simp [hc] at h
    | ok a w0 =>
      simp only [hc] at h
      obtain ⟨e1, w1, h1, h2, h3⟩ := ih w0.e e h
      refine ⟨e1, w1, ?_, h2, h3⟩
      simp only [collects, hc]
      exact h1

/-- C10. The counter total tracks the last observed value.  In every exporter reached
from `NewExporter` by a sequence of successful `Collect` calls, the `ygcTimes` total
equals `lastYgcTimes` and the `fgcTimes` total equals `lastFgcTimes`.  Hence, when the
aggregate-GC output of the last call carries the number `v` in column 12 (resp. 14) of
its line 1, the `ygcTimes` (resp. `fgcTimes`) total is `v`. -/
theorem counter_tracks_last (pf : List Char → Option ℚ) (jstatPath targetPid : List Char)
    (rs : List Reports) (e : Exporter)
    (h : collects pf (NewExporter jstatPath targetPid) rs = some e) :
    (e.ygcTimes = e.lastYgcTimes ∧ e.fgcTimes = e.lastFgcTimes) ∧
    (∀ (before : List Reports) (r : Reports) (v : ℚ), rs = before ++ [r] →
      (counterColumn pf 12 r.gc = some v → e.ygcTimes = v) ∧
      (counterColumn pf 14 r.gc = some v → e.fgcTimes = v)) := by
  obtain ⟨h1, h2⟩ := collects_keeps_offsets pf rs _ e h
  simp only [NewExporter, sub_self] at h1 h2
  have t1 : e.ygcTimes = e.lastYgcTimes := sub_eq_zero.1 h1
  have t2 : e.fgcTimes = e.lastFgcTimes := sub_eq_zero.1 h2
  refine ⟨⟨t1, t2⟩, ?_⟩
  intro before r v hrs
  subst hrs
  obtain ⟨e1, w1, _, hc, he⟩ := collects_snoc pf r before _ e h
  obtain ⟨wa, wb, wc, _, _, _, hd⟩ := Collect_inv pf r _ w1 hc
  subst he
  constructor
  · intro hv
    rw [t1]
    exact (JstatGc_step_ygc pf r.gc wc w1 v hd hv).1
  · intro hv
    rw [t2]
    exact (JstatGc_step_fgc pf r.gc wc w1 v hd hv).1

/-- C10, at a concrete input: one successful `Collect` from a fresh exporter, after
which both totals equal the figures 100 and 10 that the tool reported. -/
theorem counter_tracks_last_witness :
    collects parseDigits (NewExporter "/usr/bin/jstat".toList "1".toList) [sameRows] =
        some afterCollect.e ∧
      (afterCollect.e.ygcTimes = afterCollect.e.lastYgcTimes ∧
        afterCollect.e.fgcTimes = afterCollect.e.lastFgcTimes) ∧
      counterColumn parseDigits 12 sameRows.gc = some 100 ∧
      afterCollect.e.ygcTimes = 100 :=
  ⟨by decide!,
    (counter_tracks_last parseDigits "/usr/bin/jstat".toList "1".toList [sameRows]
      afterCollect.e (by decide!)).1,
    by decide!,
    ((counter_tracks_last parseDigits "/usr/bin/jstat".toList "1".toList [sameRows]
      afterCollect.e (by decide!)).2 [] sameRows 100 rfl).1 (by decide!)⟩

end JstatExporter
